import Mathlib

/-! Bikers portal: booking slots and cancellation policy.

A shallow embedding of the booking logic of the portal
(`controllers/bookingController.js`, `routes/api/services.js`,
`routes/api/bookings.js`, `models/Booking.js`, `models/Service.js`), of its
listing query (`controllers/bikeController.js`), of the role middleware
(`middleware/checkRole.js`) and of the `timeSince` virtual
(`models/Review.js`, `models/Message.js`), together with the properties of the
slot availability engine, of the cancellation policy, of booking creation and
of the filter, sort, pagination, facets and stats of listings.

Conventions of the embedding:

* a JavaScript `Date` is an `Option Int`: the time value in milliseconds since
  the epoch, `none` standing for an Invalid Date (time value `NaN`);
* a JavaScript number that may be `NaN` or `undefined` is an `Option Int`, and
  every comparison with `none` is false, as in JavaScript;
* the host time zone is UTC, so local time and UTC coincide;
* a `while` loop is run with fuel: `none` means that the loop has not left
  after `fuel` iterations;
* two handlers that run at the same time take turns at their awaited database
  operations, each of which is atomic;
* documents are read and written through their mongoose schemas. A service
  read through `models/Service.js` carries its schedule as `{days, hours}` and
  has no `slotDuration` (`Service.stored`); the other shapes of `Availability`
  are the plain objects that the two slot functions look for. A path that
  `models/Booking.js` does not declare (`date`, `timeSlot`, `serviceProvider`)
  is undefined on every booking, and `save()` of a new booking is rejected
  unless every required path is set (`Booking.valid`). A stored booking
  satisfies the schema, and its scheduled date and time stay set when its
  status changes;
* the id of a service is the 24 hexadecimal digits of its ObjectId, written in
  lower case; a query for an id of another form is rejected by the cast of
  mongoose (`CastError`). The ids of bookings, users and bikes are short names
  that stand for well formed ids.
-/

namespace BikersPortal

deriving instance DecidableEq for Except

/-! ## Dates and times of day -/

/-- Milliseconds in a minute, the factor of `slotDuration * 60000`. -/
abbrev msPerMinute : Int := 60000

/-- Milliseconds in a day. -/
abbrev msPerDay : Int := 86400000

/-- Value of a decimal digit character. -/
def digitVal (c : Char) : Option Nat :=
  if c.isDigit then some (c.toNat - 48) else none

/-- Character of a decimal digit. -/
def digitChar (n : Nat) : Char :=
  Char.ofNat (48 + n % 10)

/-- Value of two decimal digit characters. -/
def twoDigits (a b : Char) : Option Nat :=
  match digitVal a, digitVal b with
  | some x, some y => some (10 * x + y)
  | _, _ => none

/-- Time part `HH:MM` of an ISO date-time string, in minutes after midnight.
`24:00` is the end of the day; every other form is not a time. -/
def parseTimeOfDay (s : String) : Option Nat :=
  match s.toList with
  | [h1, h2, ':', m1, m2] =>
    match twoDigits h1 h2, twoDigits m1 m2 with
    | some h, some m =>
      if (h < 24 ∧ m < 60) ∨ (h = 24 ∧ m = 0) then some (h * 60 + m) else none
    | _, _ => none
  | _ => none

/-- Days from 1970-01-01 to the civil date `y-m-d` (proleptic Gregorian). -/
def daysFromCivil (y m d : Int) : Int :=
  let y1 := if m ≤ 2 then y - 1 else y
  let era := y1 / 400
  let yoe := y1 - era * 400
  let mp := if m > 2 then m - 3 else m + 9
  let doy := (153 * mp + 2) / 5 + d - 1
  let doe := yoe * 365 + yoe / 4 - yoe / 100 + doy
  era * 146097 + doe - 719468

/-- Date part `YYYY-MM-DD` of an ISO string, in days since the epoch. -/
def parseDate (s : String) : Option Int :=
  match s.toList with
  | [y1, y2, y3, y4, '-', m1, m2, '-', d1, d2] =>
    match twoDigits y1 y2, twoDigits y3 y4, twoDigits m1 m2, twoDigits d1 d2 with
    | some yh, some yl, some m, some d =>
      if 1 ≤ m ∧ m ≤ 12 ∧ 1 ≤ d ∧ d ≤ 31 then
        some (daysFromCivil (100 * yh + yl : Nat) m d)
      else none
    | _, _, _, _ => none
  | _ => none

/-- The date `new Date(date)` of a date-only string: midnight of that day. -/
def newDate (date : String) : Option Int :=
  (parseDate date).map (fun days => days * msPerDay)

/-- The date `new Date(date + "T" + time)` in local time, for the formats of
the data model: a `YYYY-MM-DD` date and an `HH:MM` time. Every other string
(seconds, a zone suffix, free text) is taken as an Invalid Date. -/
def newDateTime (date time : String) : Option Int :=
  match parseDate date, parseTimeOfDay time with
  | some days, some minutes => some (days * msPerDay + minutes * msPerMinute)
  | _, _ => none

/-- Weekday `getDay()`, 0 = Sunday; `none` for an Invalid Date. -/
def getDay (d : Option Int) : Option Nat :=
  d.map (fun t => ((t / msPerDay + 4) % 7).toNat)

/-- The array `dayNames` of `getServiceAvailability` and of the route. -/
def dayNames : List String :=
  ["sunday", "monday", "tuesday", "wednesday", "thursday", "friday", "saturday"]

/-- The element `dayNames[dayOfWeek]`, `none` when the index is `NaN`. -/
def dayName (dayOfWeek : Option Nat) : Option String :=
  dayOfWeek.bind (fun i => dayNames.get? i)

/-- A minute of the day written `HH:MM`, two digits each, hours 00 to 23. -/
def hhmm (minutes : Int) : String :=
  let h := (minutes / 60).toNat
  let m := (minutes % 60).toNat
  String.mk [digitChar (h / 10), digitChar h, ':', digitChar (m / 10), digitChar m]

/-- The string `toLocaleTimeString('en-US', {hour: '2-digit', minute:
'2-digit', hour12: false})` of a valid date. -/
def toLocaleTimeString (t : Int) : String :=
  hhmm (t % msPerDay / msPerMinute)

/-! ## Documents -/

/-- Values of the `status` path of a booking. -/
inductive Status where
  | pending
  | confirmed
  | completed
  | cancelled
  | declined
  deriving DecidableEq, Repr

/-- A booking document, with the paths of `bookingSchema` that the booking
functions read or write. A string path that is not set is the empty string,
and a date or number path that is not set is `none`. -/
structure Booking where
  id : String
  service : String
  user : String
  status : Status
  scheduledDate : String
  scheduledTime : String
  bookingDate : Option Int
  cancelledAt : Option Int
  cancelledBy : Option String
  provider : String := ""
  bike : String := ""
  price : Option Nat := none
  notes : String := ""
  confirmedAt : Option Int := none
  completedAt : Option Int := none
  providerNotes : Option String := none
  deriving DecidableEq, Repr

/-- The path `date` of a booking, which the availability route queries:
`bookingSchema` declares no such path, so it is undefined on every booking. -/
def Booking.date (_ : Booking) : Option Int :=
  none

/-- The path `timeSlot` of a booking, which the availability route reads:
`bookingSchema` declares no such path, so it is undefined on every booking. -/
def Booking.timeSlot (_ : Booking) : Option String :=
  none

/-- The validation that `save()` runs before it writes a booking: every path
that `bookingSchema` marks as required (`service`, `provider`, `user`,
`bookingDate`, `price`, `scheduledDate`, `scheduledTime`) is set, a required
string not being empty. -/
def Booking.valid (b : Booking) : Bool :=
  b.service != "" && b.provider != "" && b.user != "" && b.bookingDate.isSome &&
    b.price.isSome && b.scheduledDate != "" && b.scheduledTime != ""

/-- The call `save()` on a new booking: the document is inserted when it
passes the validation, and the call is rejected with a `ValidationError`
(`none`) otherwise. -/
def saveNew (bookings : List Booking) (booking : Booking) : Option (List Booking) :=
  if booking.valid then some (bookings ++ [booking]) else none

/-- Entry of the schedule keyed by weekday name, as `getServiceAvailability`
reads it. -/
structure DayAvailability where
  available : Bool
  startTime : Option String
  endTime : Option String
  deriving DecidableEq, Repr

/-- Entry of the schedule kept as an array of day objects, as the
availability route reads it. -/
structure DayEntry where
  day : String
  available : Bool
  openTime : Option String
  closeTime : Option String
  deriving DecidableEq, Repr

/-- The value of `service.availability`. A service read through
`models/Service.js` has the nested object `{days, hours: {open, close}}`
(`daysHours`). The other shapes are the values that the slot functions look
for and that no document of the model has: an object keyed by weekday name
(`byName`, read by `getServiceAvailability`), an array of day objects
(`asArray`, read by the availability route), or nothing (`absent`). -/
inductive Availability where
  | absent
  | byName (entries : List (String × DayAvailability))
  | asArray (days : List DayEntry)
  | daysHours (days : List String) (openTime closeTime : Option String)
  deriving DecidableEq, Repr

/-- A service, as the value that `Service.findById` resolves to, with the
paths that the booking functions read. `slotDuration` is `none` when
`service.slotDuration` is undefined. -/
structure Service where
  id : String
  provider : String
  price : Nat
  availability : Availability
  slotDuration : Option Int
  deriving DecidableEq, Repr

/-- A service as `models/Service.js` gives it: `availability` is the nested
object `{days, hours}` and `slotDuration`, which the schema does not declare,
is undefined. Every service that the functions receive from `findById` is of
this form. -/
def Service.stored (service : Service) : Bool :=
  (match service.availability with
    | .daysHours _ _ _ => true
    | _ => false) && service.slotDuration.isNone

/-- The validator `isMongoId`, also the strings that mongoose casts to an
ObjectId: 24 hexadecimal digits. -/
def isMongoId (id : String) : Bool :=
  id.length == 24 && id.toList.all (fun c => c.isDigit || ('a' ≤ c && c ≤ 'f') || ('A' ≤ c && c ≤ 'F'))

/-- The name of the error with which a query is rejected when its id is not
an ObjectId. -/
def castError : String := "CastError"

/-- The document that `Service.findById(id)` resolves to. An id that is not an
ObjectId resolves to no document: the query is rejected with `castError`,
which each caller answers before it looks at the result. -/
def findService (services : List Service) (id : String) : Option Service :=
  if isMongoId id then services.find? (fun s => s.id == id) else none

/-- Lookup `Booking.findById` for the id of a booking. -/
def findBooking (bookings : List Booking) (id : String) : Option Booking :=
  bookings.find? (fun b => b.id == id)

/-- The operand `x || fallback` for a string path: undefined and the empty
string are falsy. -/
def strOr (x : Option String) (fallback : String) : String :=
  match x with
  | some s => if s = "" then fallback else s
  | none => fallback

/-! ## getServiceAvailability (bookingController.js) -/

/-- The entry `availability[dayNames[dayOfWeek]]` of `service.availability ||
{}`: `none` when undefined, as it is for the object `{days, hours}` of a
stored service, which has no key named after a weekday. -/
def dayAvailabilityOf (service : Service) (date : String) : Option DayAvailability :=
  match service.availability, dayName (getDay (newDate date)) with
  | .byName entries, some name => (entries.find? (fun e => e.1 == name)).map Prod.snd
  | _, _ => none

/-- The value `service.slotDuration || 60`. -/
def slotDurationOf (service : Service) : Int :=
  match service.slotDuration with
  | some d => if d = 0 then 60 else d
  | none => 60

/-- The loop `while (current < end)` that pushes the time string of `current`
and advances it by `step` milliseconds. -/
def slotLoop : Nat → Int → Int → Int → List String → Option (List String)
  | 0, current, stop, _, timeSlots =>
    if current < stop then none else some timeSlots
  | fuel + 1, current, stop, step, timeSlots =>
    if current < stop then
      slotLoop fuel (current + step) stop step (timeSlots ++ [toLocaleTimeString current])
    else some timeSlots

/-- The list `timeSlots` generated from `start` to `end`; the loop is not
entered when either date is invalid. -/
def generateTimeSlots (fuel : Nat) (start stop : Option Int) (slotDuration : Int) :
    Option (List String) :=
  match start, stop with
  | some s, some e => slotLoop fuel s e (slotDuration * msPerMinute) []
  | _, _ => some []

/-- The candidate list `timeSlots` of `getServiceAvailability` for an
available day, before booked times are removed. -/
def candidateSlots (fuel : Nat) (service : Service) (day : DayAvailability) (date : String) :
    Option (List String) :=
  let startTime := strOr day.startTime "09:00"
  let endTime := strOr day.endTime "17:00"
  let slotDuration := slotDurationOf service
  generateTimeSlots fuel (newDateTime date startTime) (newDateTime date endTime) slotDuration

/-- The query `Booking.find({service, scheduledDate, status: {$in: ['pending',
'confirmed']}})`. -/
def existingBookings (bookings : List Booking) (serviceId date : String) : List Booking :=
  bookings.filter (fun b =>
    b.service == serviceId && b.scheduledDate == date &&
      (b.status == Status.pending || b.status == Status.confirmed))

/-- The function `getServiceAvailability(serviceId, date)`: the thrown error
or the available time slots; `none` when the loop does not end within the
fuel. The id is passed to `findById` as it comes, so an id that is not an
ObjectId makes the function throw the cast error. -/
def getServiceAvailability (fuel : Nat) (services : List Service) (bookings : List Booking)
    (serviceId date : String) : Option (Except String (List String)) :=
  if !isMongoId serviceId then some (.error castError)
  else
    match findService services serviceId with
    | none => some (.error "Service not found")
    | some service =>
      match dayAvailabilityOf service date with
      | none => some (.ok [])
      | some day =>
        if !day.available then some (.ok [])
        else
          match candidateSlots fuel service day date with
          | none => none
          | some timeSlots =>
            let bookedTimes := (existingBookings bookings serviceId date).map (·.scheduledTime)
            some (.ok (timeSlots.filter (fun time => !bookedTimes.contains time)))

/-- Order of two time strings by time of day: both are `HH:MM` times and the
first is strictly earlier. -/
def timeBefore (a b : String) : Prop :=
  match parseTimeOfDay a, parseTimeOfDay b with
  | some x, some y => x < y
  | _, _ => False

instance : DecidableRel timeBefore := fun a b => by
  unfold timeBefore
  split <;> infer_instance

/-! ## HTTP responses -/

/-- The JSON body of a response, or the target of a redirect. -/
inductive Body where
  | slots (availableTimeSlots : List String)
  | message (text : String)
  | errors (messages : List String)
  | booking (text : String) (doc : Booking)
  | redirect (url : String)
  deriving DecidableEq, Repr

/-- A response: status code, `success` flag and body. -/
structure Response where
  status : Nat
  success : Bool
  body : Body
  deriving DecidableEq, Repr

/-! ## GET /api/services/:id/availability (routes/api/services.js) -/

/-- A JavaScript number as the route computes with it. -/
inductive JsNum where
  | num (n : Int)
  | nan
  | undefined
  deriving DecidableEq, Repr

/-- The comparison `a < b`. -/
def JsNum.lt : JsNum → JsNum → Bool
  | .num x, .num y => decide (x < y)
  | _, _ => false

/-- The comparison `a === b`. -/
def JsNum.strictEq : JsNum → JsNum → Bool
  | .num x, .num y => decide (x = y)
  | .undefined, .undefined => true
  | _, _ => false

/-- The pieces of `s.split(':')`. -/
def splitColon : List Char → List (List Char)
  | [] => [[]]
  | c :: cs =>
    match splitColon cs with
    | [] => [[c]]
    | p :: ps => if c = ':' then [] :: p :: ps else (c :: p) :: ps

/-- Value of a string of decimal digits read from the left, after `acc`. -/
def digitsVal : List Char → Nat → Option Nat
  | [], acc => some acc
  | c :: cs, acc =>
    match digitVal c with
    | some d => digitsVal cs (10 * acc + d)
    | none => none

/-- The conversion `Number(s)` for decimal integers: the empty string is 0,
an optionally signed string of digits is its value, and every other string is
taken as `NaN`. -/
def jsNumber (s : List Char) : JsNum :=
  match s with
  | [] => .num 0
  | '-' :: c :: cs =>
    match digitsVal (c :: cs) 0 with
    | some n => .num (-(n : Int))
    | none => .nan
  | '+' :: c :: cs =>
    match digitsVal (c :: cs) 0 with
    | some n => .num n
    | none => .nan
  | cs =>
    match digitsVal cs 0 with
    | some n => .num n
    | none => .nan

/-- The destructuring `[hour, minute] = time.split(':').map(Number)`. -/
def hourMinute (time : String) : JsNum × JsNum :=
  match (splitColon time.toList).map jsNumber with
  | h :: m :: _ => (h, m)
  | [h] => (h, .undefined)
  | [] => (.undefined, .undefined)

/-- The call `s.padStart(2, '0')`. -/
def padStart2 (s : String) : String :=
  String.mk (List.replicate (2 - s.length) '0') ++ s

/-- The call `x.toString().padStart(2, '0')`; `none` when `x` is undefined
and the call throws a TypeError. -/
def JsNum.pad2 : JsNum → Option String
  | .num n => some (padStart2 (toString n))
  | .nan => some (padStart2 "NaN")
  | .undefined => none

/-- The statement `currentMinute += slotDuration`. -/
def JsNum.add : JsNum → Int → JsNum
  | .num n, k => .num (n + k)
  | _, _ => .nan

/-- The statement `currentHour += Math.floor(currentMinute / 60)` for a
numeric `currentMinute`. -/
def JsNum.addNum : JsNum → Int → JsNum
  | .num n, k => .num (n + k)
  | _, _ => .nan

/-- The loop of the availability route over `(currentHour, currentMinute)`:
each time slot not in `bookedTimeSlots` is pushed. The result is `none` when
the loop has not ended within the fuel, and `some none` when it throws. -/
def routeLoop (bookedTimeSlots : List (Option String)) (closeHour closeMinute : JsNum) :
    Nat → JsNum → JsNum → List String → Option (Option (List String))
  | 0, currentHour, currentMinute, timeSlots =>
    if currentHour.lt closeHour ||
        (currentHour.strictEq closeHour && currentMinute.lt closeMinute) then none
    else some (some timeSlots)
  | fuel + 1, currentHour, currentMinute, timeSlots =>
    if currentHour.lt closeHour ||
        (currentHour.strictEq closeHour && currentMinute.lt closeMinute) then
      match currentHour.pad2, currentMinute.pad2 with
      | some hh, some mm =>
        let timeSlot := hh ++ ":" ++ mm
        let timeSlots1 :=
          if bookedTimeSlots.contains (some timeSlot) then timeSlots
          else timeSlots ++ [timeSlot]
        let minute1 := currentMinute.add 60
        match minute1 with
        | .num m =>
          if 60 ≤ m then
            routeLoop bookedTimeSlots closeHour closeMinute fuel
              (currentHour.addNum (m / 60)) (.num (m % 60)) timeSlots1
          else
            routeLoop bookedTimeSlots closeHour closeMinute fuel currentHour minute1 timeSlots1
        | _ =>
          routeLoop bookedTimeSlots closeHour closeMinute fuel currentHour minute1 timeSlots1
      | _, _ => some none
    else some (some timeSlots)

/-- The call `s.toLowerCase()`. -/
def toLowerCase (s : String) : String :=
  String.mk (s.toList.map Char.toLower)

/-- The query `Booking.find({service, date: {$gte, $lt}})` of the route, on
the day that starts at `midnight`: from 00:00:00 to before 23:59:59. No
booking has a `date`, so the query finds none. -/
def routeBookings (bookings : List Booking) (serviceId : String) (midnight : Int) :
    List Booking :=
  bookings.filter (fun b =>
    b.service == serviceId &&
      match b.date with
      | some t => decide (midnight ≤ t) && decide (t < midnight + 86399000)
      | none => false)

/-- The entry `service.availability.find(day => day.day.toLowerCase() ===
dayNames[dayOfWeek])` of the route for the date `date`. -/
def routeDayOf (days : List DayEntry) (date : String) : Option DayEntry :=
  days.find? (fun day => some (toLowerCase day.day) == dayName (getDay (newDate date)))

/-- The handler of GET `/api/services/:id/availability`; the `date` query
parameter may be missing. The result is `none` when the loop has not ended
within the fuel. The call `service.availability.find` throws a TypeError
unless `availability` is an array, so the handler answers 500 for the object
`{days, hours}` of a stored service. -/
def availabilityRoute (fuel : Nat) (services : List Service) (bookings : List Booking)
    (id : String) (date : Option String) : Option Response :=
  if !isMongoId id then some ⟨400, false, .errors ["Invalid service ID"]⟩
  else
    match date with
    | none => some ⟨400, false, .message "Date parameter is required"⟩
    | some date =>
      if date = "" then some ⟨400, false, .message "Date parameter is required"⟩
      else
        match findService services id with
        | none => some ⟨404, false, .message "Service not found"⟩
        | some service =>
          match service.availability with
          | .asArray days =>
            match routeDayOf days date, newDate date with
            | some day, some midnight =>
              if !day.available then some ⟨200, true, .slots []⟩
              else
                let bookedTimeSlots := (routeBookings bookings id midnight).map (·.timeSlot)
                let openTime := strOr day.openTime "09:00"
                let closeTime := strOr day.closeTime "17:00"
                let (openHour, openMinute) := hourMinute openTime
                let (closeHour, closeMinute) := hourMinute closeTime
                match routeLoop bookedTimeSlots closeHour closeMinute fuel openHour openMinute [] with
                | none => none
                | some none => some ⟨500, false, .message "Server error"⟩
                | some (some timeSlots) => some ⟨200, true, .slots timeSlots⟩
            | _, _ => some ⟨200, true, .slots []⟩
          | _ => some ⟨500, false, .message "Server error"⟩

/-! ## Cancellation policy (models/Booking.js) -/

/-- The value `diffHours > 24` where `diffHours = (bookingDate - now) / (1000
* 60 * 60)`; the quotient is taken in the rationals, and the comparison with
`NaN` is false. -/
def moreThan24Hours (bookingDate : Option Int) (now : Int) : Bool :=
  match bookingDate with
  | some t => decide (((t - now : Int) : ℚ) / (1000 * 60 * 60) > 24)
  | none => false

/-- The method `canBeCancelled()` at the current time `now`. -/
def canBeCancelled (b : Booking) (now : Int) : Bool :=
  if b.status = Status.completed then false
  else if b.status = Status.cancelled then false
  else moreThan24Hours (newDateTime b.scheduledDate b.scheduledTime) now

/-- The method `canBeRescheduled()` at the current time `now`. -/
def canBeRescheduled (b : Booking) (now : Int) : Bool :=
  if b.status ≠ Status.pending ∧ b.status ≠ Status.confirmed then false
  else moreThan24Hours (newDateTime b.scheduledDate b.scheduledTime) now

/-! ## Cancelling a booking -/

/-- The call `booking.save()` on a stored booking whose status or time stamps
were changed: the stored document with the same id is replaced. The document
satisfied the schema when it was read and the changes leave every required
path set, so the validation of `save()` passes. -/
def saveBooking (bookings : List Booking) (booking : Booking) : List Booking :=
  bookings.map (fun b => if b.id == booking.id then booking else b)

/-- The handler of PUT `/api/bookings/:id/cancel` behind `ensureAuthenticated`,
at the time `now`: the response and the bookings afterwards. -/
def cancelRoute (bookings : List Booking) (sessionUser : Option String) (xhr : Bool)
    (id : String) (now : Int) : Response × List Booking :=
  match sessionUser with
  | none =>
    if xhr then (⟨401, false, .message "Authentication required."⟩, bookings)
    else (⟨302, false, .redirect "/login.html"⟩, bookings)
  | some userId =>
    match findBooking bookings id with
    | none => (⟨404, false, .message "Booking not found"⟩, bookings)
    | some booking =>
      if booking.user ≠ userId then
        (⟨403, false, .message "Not authorized to cancel this booking"⟩, bookings)
      else if booking.status = Status.completed then
        (⟨400, false, .message "Cannot cancel a completed booking"⟩, bookings)
      else
        let booking1 := { booking with status := Status.cancelled, cancelledAt := some now }
        (⟨200, true, .booking "Booking cancelled successfully" booking1⟩,
          saveBooking bookings booking1)

/-- The function `cancelBooking(bookingId, userId)` of the controller at the
time `now`: the thrown error, if any, and the bookings afterwards. The
notification is sent after the booking is saved. -/
def cancelBooking (services : List Service) (bookings : List Booking)
    (bookingId userId : String) (now : Int) : Except String Unit × List Booking :=
  match findBooking bookings bookingId with
  | none => (.error "Booking not found", bookings)
  | some booking =>
    let booking1 :=
      { booking with status := Status.cancelled, cancelledAt := some now,
                     cancelledBy := some userId }
    match findService services booking.service with
    | none => (.error "TypeError", saveBooking bookings booking1)
    | some _ => (.ok (), saveBooking bookings booking1)

/-! ## parseInt -/

/-- Value of a hexadecimal digit character. -/
def hexVal (c : Char) : Option Nat :=
  if c.isDigit then some (c.toNat - 48)
  else if 'a' ≤ c ∧ c ≤ 'f' then some (c.toNat - 87)
  else if 'A' ≤ c ∧ c ≤ 'F' then some (c.toNat - 55)
  else none

/-- Value of the longest prefix of digits of the radix; `acc` is the value
read so far, `none` while no digit has been read. -/
def leadingDigits (radix : Nat) (digit : Char → Option Nat) :
    List Char → Option Nat → Option Nat
  | [], acc => acc
  | c :: cs, acc =>
    match digit c with
    | some d => leadingDigits radix digit cs (some (radix * acc.getD 0 + d))
    | none => acc

/-- The call `parseInt(s)` on the characters of a string: leading white space
is skipped, a sign is read, then the digits of radix 16 after `0x` and of
radix 10 otherwise, as far as they go; `none` is `NaN`. -/
def parseIntChars (cs : List Char) : Option Int :=
  let trimmed := cs.dropWhile Char.isWhitespace
  let signed : Bool × List Char :=
    match trimmed with
    | '-' :: r => (true, r)
    | '+' :: r => (false, r)
    | r => (false, r)
  let magnitude : Option Nat :=
    match signed.2 with
    | '0' :: 'x' :: r => leadingDigits 16 hexVal r none
    | '0' :: 'X' :: r => leadingDigits 16 hexVal r none
    | r => leadingDigits 10 digitVal r none
  magnitude.map (fun n => if signed.1 then -(n : Int) else (n : Int))

/-- The call `parseInt(x)` on a query parameter; `parseInt(undefined)` is
`NaN`. -/
def jsParseInt (x : Option String) : Option Int :=
  x.bind (fun s => parseIntChars s.toList)

/-! ## POST /api/bookings (routes/api/bookings.js) -/

/-- The body of a booking request; a field that is missing is the empty
string. -/
structure BookingRequest where
  serviceId : String
  date : String
  time : String
  notes : String
  deriving DecidableEq, Repr

/-- The messages of the validators of the route that fail: `serviceId` not
empty, `date` an ISO 8601 date (of the form `YYYY-MM-DD`), `time` not empty. -/
def bookingRequestErrors (req : BookingRequest) : List String :=
  (if req.serviceId = "" then ["Service ID is required"] else []) ++
  (if (parseDate req.date).isNone then ["Date is required"] else []) ++
  (if req.time = "" then ["Time is required"] else [])

/-- The date `bookingDateTime`: `new Date(date)` after `setHours(parseInt(
hours), parseInt(minutes))` with `[hours, minutes] = time.split(':')`. The
seconds and milliseconds of `date` are kept; the date is invalid when an
argument of `setHours` is `NaN`. -/
def bookingDateTime (date : Int) (time : String) : Option Int :=
  let parts := splitColon time.toList
  let hours := (parts.get? 0).bind parseIntChars
  let minutes := (parts.get? 1).bind parseIntChars
  match hours, minutes with
  | some h, some m => some (date / msPerDay * msPerDay + h * 3600000 + m * msPerMinute +
      date % msPerMinute)
  | _, _ => none

/-- The query `Booking.findOne({service, bookingDate, status: {$nin:
['cancelled', 'declined']}})`. -/
def existingBooking (bookings : List Booking) (serviceId : String) (bookingDate : Int) :
    Option Booking :=
  bookings.find? (fun b =>
    b.service == serviceId && b.bookingDate == some bookingDate &&
      !(b.status == Status.cancelled || b.status == Status.declined))

/-- The response of the route when the slot is taken. -/
def slotConflict : Response :=
  ⟨400, false, .message "This time slot is no longer available. Please choose another time."⟩

/-- The handler of POST `/api/bookings` behind `ensureAuthenticated`: the
response and the bookings afterwards. `newId` is the identifier given to the
new document. An error thrown inside the `try` block is answered with 500:
the cast error of a service id that is not an ObjectId, the failed query for
a date-time that is invalid, and the rejection of `newBooking.save()`. The
document `newBooking` is given neither `scheduledDate` nor `scheduledTime`. -/
def postBooking (services : List Service) (bookings : List Booking)
    (sessionUser : Option String) (xhr : Bool) (newId : String) (req : BookingRequest) :
    Response × List Booking :=
  match sessionUser with
  | none =>
    if xhr then (⟨401, false, .message "Authentication required."⟩, bookings)
    else (⟨302, false, .redirect "/login.html"⟩, bookings)
  | some userId =>
    if bookingRequestErrors req ≠ [] then
      (⟨400, false, .errors (bookingRequestErrors req)⟩, bookings)
    else if !isMongoId req.serviceId then (⟨500, false, .message "Server error"⟩, bookings)
    else
      match findService services req.serviceId with
      | none => (⟨404, false, .message "Service not found"⟩, bookings)
      | some service =>
        match (newDate req.date).bind (fun d => bookingDateTime d req.time) with
        | none => (⟨500, false, .message "Server error"⟩, bookings)
        | some dateTime =>
          match existingBooking bookings req.serviceId dateTime with
          | some _ => (slotConflict, bookings)
          | none =>
            let newBooking : Booking :=
              { id := newId, service := req.serviceId, user := userId,
                status := Status.pending, scheduledDate := "", scheduledTime := "",
                bookingDate := some dateTime, cancelledAt := none, cancelledBy := none,
                provider := service.provider, bike := "", price := some service.price,
                notes := req.notes }
            match saveNew bookings newBooking with
            | none => (⟨500, false, .message "Server error"⟩, bookings)
            | some bookings1 =>
              (⟨200, true, .booking "Booking created successfully" newBooking⟩, bookings1)

/-! ## createBooking (bookingController.js) -/

/-- The argument `bookingData` of `createBooking`. -/
structure BookingData where
  serviceId : String
  bikeId : String
  userId : String
  date : String
  time : String
  notes : String
  deriving DecidableEq, Repr

/-- The function `createBooking(bookingData)` of the controller: the thrown
error or the created booking, and the bookings afterwards. `owned` tells
whether `Bike.findOne({_id, seller})` finds the bike of the user, and `newId`
is the identifier given to the new document. The document sets
`serviceProvider`, which is not a path of the schema, and sets neither
`provider`, `bookingDate` nor `price`; the rejection of `booking.save()` is
thrown as `ValidationError`. -/
def createBooking (services : List Service) (owned : String → String → Bool)
    (bookings : List Booking) (newId : String) (data : BookingData) :
    Except String Booking × List Booking :=
  if !isMongoId data.serviceId then (.error castError, bookings)
  else
    match findService services data.serviceId with
    | none => (.error "Service not found", bookings)
    | some _ =>
      if !owned data.bikeId data.userId then
        (.error "Bike not found or does not belong to you", bookings)
      else
        let booking : Booking :=
          { id := newId, service := data.serviceId, user := data.userId,
            status := Status.pending, scheduledDate := data.date, scheduledTime := data.time,
            bookingDate := none, cancelledAt := none, cancelledBy := none,
            provider := "", bike := data.bikeId, price := none, notes := data.notes }
        match saveNew bookings booking with
        | none => (.error "ValidationError", bookings)
        | some bookings1 => (.ok booking, bookings1)

/-- A booking holds its slot when its status is neither cancelled nor
declined. -/
def holdsSlot (b : Booking) : Bool :=
  !(b.status == Status.cancelled || b.status == Status.declined)

/-- The slot contention invariant: no two distinct bookings that hold their
slot share the service, the scheduled date and the scheduled time. -/
def slotContentionFree (bookings : List Booking) : Prop :=
  ∀ a ∈ bookings, ∀ b ∈ bookings, a.id ≠ b.id → holdsSlot a = true → holdsSlot b = true →
    ¬ (a.service = b.service ∧ a.scheduledDate = b.scheduledDate ∧
      a.scheduledTime = b.scheduledTime)

instance (bookings : List Booking) : Decidable (slotContentionFree bookings) := by
  unfold slotContentionFree
  infer_instance

/-! ## getBikes (bikeController.js) -/

/-- A listing document, with the paths the listing query reads. -/
structure Bike where
  id : String
  seller : String
  title : String
  description : String
  brand : String
  model : String
  year : Int
  price : Int
  condition : String
  fuelType : String
  category : String
  location : String
  availability : String
  createdAt : Int
  deriving DecidableEq, Repr

/-- The query parameters `req.query` of the listing pages; a parameter that
is absent is `none`. -/
structure BikeQuery where
  search : Option String
  brand : Option String
  minPrice : Option String
  maxPrice : Option String
  minYear : Option String
  maxYear : Option String
  condition : Option String
  category : Option String
  location : Option String
  fuelType : Option String
  sortBy : Option String
  page : Option String
  limit : Option String
  deriving DecidableEq, Repr

/-- The query without any parameter. -/
def emptyQuery : BikeQuery :=
  ⟨none, none, none, none, none, none, none, none, none, none, none, none, none⟩

/-- The test `if (x)` on a query parameter: undefined and the empty string
are falsy. -/
def truthy (x : Option String) : Bool :=
  match x with
  | some s => s != ""
  | none => false

/-- The value `x` when `if (x)` holds, and no entry otherwise. -/
def whenTruthy (x : Option String) : Option String :=
  if truthy x then x else none

/-- The object `{$gte, $lte}` of a range condition; a bound is absent, or a
number that may be `NaN`. -/
structure Range where
  gte : Option (Option Int)
  lte : Option (Option Int)
  deriving DecidableEq, Repr

/-- The range condition built from a minimum and a maximum parameter: `if
(min || max) { r = {}; if (min) r.$gte = parseInt(min); if (max) r.$lte =
parseInt(max) }`. -/
def buildRange (min max : Option String) : Option Range :=
  if truthy min || truthy max then
    some ⟨if truthy min then some (jsParseInt min) else none,
      if truthy max then some (jsParseInt max) else none⟩
  else none

/-- The filter object of `getBikes`. The entry `search` stands for the `$or`
of the four conditions `{$regex: search, $options: 'i'}` on title,
description, brand and model. -/
structure BikeFilter where
  availability : String
  search : Option String
  brand : Option String
  price : Option Range
  year : Option Range
  condition : Option String
  category : Option String
  location : Option String
  fuelType : Option String
  deriving DecidableEq, Repr

/-- The filter that `getBikes` builds from the query parameters. -/
def buildFilter (q : BikeQuery) : BikeFilter :=
  { availability := "available",
    search := whenTruthy q.search,
    brand := whenTruthy q.brand,
    price := buildRange q.minPrice q.maxPrice,
    year := buildRange q.minYear q.maxYear,
    condition := whenTruthy q.condition,
    category := whenTruthy q.category,
    location := whenTruthy q.location,
    fuelType := whenTruthy q.fuelType }

/-- An equality condition of the filter on a string path. -/
def eqOk (cond : Option String) (value : String) : Bool :=
  match cond with
  | none => true
  | some v => value == v

/-- The condition `$gte` on a number: a bound `NaN` is satisfied by no
number (for a path of type `Number` the cast rejects it before the database
compares, see `rangeRejected`). -/
def gteOk (bound : Option (Option Int)) (value : Int) : Bool :=
  match bound with
  | none => true
  | some none => false
  | some (some n) => decide (n ≤ value)

/-- The condition `$lte` on a number: a bound `NaN` is satisfied by no
number (for a path of type `Number` the cast rejects it before the database
compares, see `rangeRejected`). -/
def lteOk (bound : Option (Option Int)) (value : Int) : Bool :=
  match bound with
  | none => true
  | some none => false
  | some (some n) => decide (value ≤ n)

/-- A range condition on a number; the empty object `{}` is an equality that
no number satisfies. -/
def rangeOk (range : Option Range) (value : Int) : Bool :=
  match range with
  | none => true
  | some ⟨none, none⟩ => false
  | some r => gteOk r.gte value && lteOk r.lte value

/-- The `$or` of the four regular expression conditions; `regex pattern text`
is the case-insensitive match of the database, a parameter of the embedding. -/
def searchOk (regex : String → String → Bool) (search : Option String) (b : Bike) : Bool :=
  match search with
  | none => true
  | some pattern =>
    regex pattern b.title || regex pattern b.description || regex pattern b.brand ||
      regex pattern b.model

/-- Whether a listing satisfies a filter: all entries hold. -/
def matchesFilter (regex : String → String → Bool) (f : BikeFilter) (b : Bike) : Bool :=
  b.availability == f.availability && searchOk regex f.search b && eqOk f.brand b.brand &&
    rangeOk f.price b.price && rangeOk f.year b.year && eqOk f.condition b.condition &&
    eqOk f.category b.category && eqOk f.location b.location && eqOk f.fuelType b.fuelType

/-- The paths a sort object of the listing pages can name. -/
inductive SortField where
  | createdAt
  | price
  | year
  deriving DecidableEq, Repr

/-- A sort object with one key, such as `{ price: 1 }`: direction 1 is
ascending and -1 descending. -/
structure SortSpec where
  field : SortField
  direction : Int
  deriving DecidableEq, Repr

/-- The sort object of `getBikes`. -/
def sortOf (sortBy : Option String) : SortSpec :=
  if sortBy = some "price-low" then ⟨.price, 1⟩
  else if sortBy = some "price-high" then ⟨.price, -1⟩
  else if sortBy = some "year-new" then ⟨.year, -1⟩
  else if sortBy = some "year-old" then ⟨.year, 1⟩
  else ⟨.createdAt, -1⟩

/-- The sort object `sortOption` of `getAllBikes`: the `switch` is entered
when `sortBy` is truthy. -/
def sortOption (sortBy : Option String) : SortSpec :=
  if truthy sortBy then
    match sortBy with
    | some "price-low" => ⟨.price, 1⟩
    | some "price-high" => ⟨.price, -1⟩
    | some "year-new" => ⟨.year, -1⟩
    | some "year-old" => ⟨.year, 1⟩
    | _ => ⟨.createdAt, -1⟩
  else ⟨.createdAt, -1⟩

/-- The value of a listing at a sort path. -/
def sortKey (field : SortField) (b : Bike) : Int :=
  match field with
  | .createdAt => b.createdAt
  | .price => b.price
  | .year => b.year

/-- The order of a sort object: `a` may come before `b`. -/
def sortLe (spec : SortSpec) (a b : Bike) : Prop :=
  if spec.direction = 1 then sortKey spec.field a ≤ sortKey spec.field b
  else sortKey spec.field b ≤ sortKey spec.field a

instance (spec : SortSpec) : DecidableRel (sortLe spec) := fun a b => by
  unfold sortLe
  infer_instance

instance sortLe_total (spec : SortSpec) : IsTotal Bike (sortLe spec) :=
  ⟨fun a b => by
    unfold sortLe
    split
    · exact le_total _ _
    · exact le_total _ _⟩

instance sortLe_trans (spec : SortSpec) : IsTrans Bike (sortLe spec) :=
  ⟨fun a b c => by
    unfold sortLe
    split
    · exact le_trans
    · exact fun h1 h2 => le_trans h2 h1⟩

/-- The call `.sort(spec)`: the documents in an order of the sort object. The
database fixes no order among documents that are equal on the key; this
function is one such order, and no statement below depends on which. -/
def sortDocs (spec : SortSpec) (docs : List Bike) : List Bike :=
  docs.insertionSort (sortLe spec)

/-- The calls `.skip(skip).limit(limit)` on a sequence of documents: a
negative skip is rejected by the database (`none`), a limit of 0 is no limit
and a negative limit counts as its absolute value. -/
def skipLimit {α : Type} (docs : List α) (skip limit : Int) : Option (List α) :=
  if skip < 0 then none
  else if limit = 0 then some (docs.drop skip.toNat)
  else some ((docs.drop skip.toNat).take limit.natAbs)

/-- The value `parseInt(req.query.page) || 1`. -/
def effectivePage (page : Option String) : Int :=
  match jsParseInt page with
  | some n => if n = 0 then 1 else n
  | none => 1

/-- The value `parseInt(req.query.limit) || 12` of `getAllBikes`. -/
def effectiveLimit (limit : Option String) : Int :=
  match jsParseInt limit with
  | some n => if n = 0 then 12 else n
  | none => 12

/-- The page size of `getBikes`. -/
def bikesPerPage : Int := 9

/-- The value `skip = (page - 1) * limit`. -/
def skipOf (page limit : Int) : Int :=
  (page - 1) * limit

/-- The records of page `page`: those of the sequence after `skip(skipOf page
limit)` and `limit(limit)`. -/
def pageOf {α : Type} (docs : List α) (page limit : Int) : Option (List α) :=
  skipLimit docs (skipOf page limit) limit

/-- The value `Math.ceil(total / limit)` for a positive limit. -/
def totalPagesOf (total : Nat) (limit : Int) : Int :=
  ((total : Int) + limit - 1) / limit

/-- The paging values `(page, limit, skip)` of `getAllBikes`. -/
def getAllBikesPaging (q : BikeQuery) : Int × Int × Int :=
  (effectivePage q.page, effectiveLimit q.limit,
    skipOf (effectivePage q.page) (effectiveLimit q.limit))

/-- The object `stats` of the range sliders. -/
structure Stats where
  minPrice : Int
  maxPrice : Int
  minYear : Int
  maxYear : Int
  deriving DecidableEq, Repr

/-- The listings of the pool `{ availability: 'available' }`. -/
def availableBikes (bikes : List Bike) : List Bike :=
  bikes.filter (fun b => b.availability == "available")

/-- The call `Bike.distinct(path, { availability: 'available' })`. -/
def distinct (path : Bike → String) (bikes : List Bike) : List String :=
  ((availableBikes bikes).map path).dedup

/-- The object `stats`: the first group of the aggregation over the available
listings, or the defaults when there is none; `currentYear` is `new
Date().getFullYear()`. -/
def statsOf (currentYear : Int) (bikes : List Bike) : Stats :=
  match availableBikes bikes with
  | [] => ⟨0, 1000000, 2000, currentYear⟩
  | b :: bs =>
    ⟨(bs.map (·.price)).foldl min b.price, (bs.map (·.price)).foldl max b.price,
      (bs.map (·.year)).foldl min b.year, (bs.map (·.year)).foldl max b.year⟩

/-- The values that `getBikes` passes to the view. -/
structure BikesView where
  bikes : List Bike
  currentPage : Int
  totalPages : Int
  totalBikes : Nat
  brands : List String
  categories : List String
  locations : List String
  fuelTypes : List String
  conditions : List String
  stats : Stats
  deriving DecidableEq, Repr

/-- The sequence `Bike.find(filter).sort(sort)` of `getBikes`. -/
def sortedMatches (regex : String → String → Bool) (bikes : List Bike) (q : BikeQuery) :
    List Bike :=
  sortDocs (sortOf q.sortBy) (bikes.filter (matchesFilter regex (buildFilter q)))

/-- The handler `getBikes` on a request whose filter the database accepts:
the values rendered, or `none` when the query is rejected for its negative
skip and the error page is rendered with status 500. The rejection of the
filter itself is added by `getBikesPage`. -/
def getBikes (currentYear : Int) (regex : String → String → Bool) (bikes : List Bike)
    (q : BikeQuery) : Option BikesView :=
  let page := effectivePage q.page
  let limit := bikesPerPage
  match pageOf (sortedMatches regex bikes q) page limit with
  | none => none
  | some found =>
    let totalBikes := (bikes.filter (matchesFilter regex (buildFilter q))).length
    some
      { bikes := found, currentPage := page, totalPages := totalPagesOf totalBikes limit,
        totalBikes := totalBikes,
        brands := distinct (·.brand) bikes, categories := distinct (·.category) bikes,
        locations := distinct (·.location) bikes, fuelTypes := distinct (·.fuelType) bikes,
        conditions := distinct (·.condition) bikes, stats := statsOf currentYear bikes }

/-- Whether a range condition has a bound `NaN`, which mongoose refuses to
cast for a path of type `Number` (`price` and `year` in `models/Bike.js`). -/
def rangeRejected (range : Option Range) : Bool :=
  match range with
  | some r => r.gte == some none || r.lte == some none
  | none => false

/-- Whether `Bike.find(filter)` is rejected: a bound of the price or of the
year is `NaN` (a `CastError`), or the search pattern is not a regular
expression; `validRegex` tells which patterns the database accepts, a
parameter of the embedding. -/
def filterRejected (validRegex : String → Bool) (f : BikeFilter) : Bool :=
  rangeRejected f.price || rangeRejected f.year ||
    (match f.search with
      | some pattern => !validRegex pattern
      | none => false)

/-- The handler `getBikes` as a whole: the values rendered, or `none` when a
query is rejected (the filter does not pass the cast or the database, or the
skip is negative), which the `catch` block answers with the error page and
status 500. -/
def getBikesPage (currentYear : Int) (validRegex : String → Bool)
    (regex : String → String → Bool) (bikes : List Bike) (q : BikeQuery) : Option BikesView :=
  if filterRejected validRegex (buildFilter q) then none
  else getBikes currentYear regex bikes q

/-! ## Concurrent requests to POST /api/bookings -/

/-- A request to POST `/api/bookings` that has passed the session check, the
validators and `Service.findById`: the user, the identifier of the document
it would create, the body, the service and the combined date-time. -/
structure PostCall where
  userId : String
  newId : String
  req : BookingRequest
  service : Service
  dateTime : Int
  deriving DecidableEq, Repr

/-- The document `newBooking` of a call. -/
def PostCall.newBooking (c : PostCall) : Booking :=
  { id := c.newId, service := c.req.serviceId, user := c.userId,
    status := Status.pending, scheduledDate := "", scheduledTime := "",
    bookingDate := some c.dateTime, cancelledAt := none, cancelledBy := none,
    provider := c.service.provider, bike := "", price := some c.service.price,
    notes := c.req.notes }

/-- Where a call stands between its awaited database operations: before
`await Booking.findOne`, before `await newBooking.save()`, or answered. -/
inductive PostPhase where
  | start
  | saving
  | done (response : Response)
  deriving DecidableEq, Repr

/-- One awaited operation of a call on the shared bookings: `findOne`, which
answers the conflict when a booking is found, then `save`, whose rejection is
answered with 500. -/
def postStep (c : PostCall) (phase : PostPhase) (bookings : List Booking) :
    PostPhase × List Booking :=
  match phase with
  | .start =>
    match existingBooking bookings c.req.serviceId c.dateTime with
    | some _ => (.done slotConflict, bookings)
    | none => (.saving, bookings)
  | .saving =>
    match saveNew bookings c.newBooking with
    | none => (.done ⟨500, false, .message "Server error"⟩, bookings)
    | some bookings1 =>
      (.done ⟨200, true, .booking "Booking created successfully" c.newBooking⟩, bookings1)
  | .done response => (.done response, bookings)

/-- The state of two calls that run on the same bookings. -/
structure RaceState where
  first : PostPhase
  second : PostPhase
  bookings : List Booking
  deriving DecidableEq, Repr

/-- The next operation of the first call (`true`) or of the second. -/
def raceStep (a b : PostCall) (s : RaceState) (turn : Bool) : RaceState :=
  if turn then
    let r := postStep a s.first s.bookings
    { s with first := r.1, bookings := r.2 }
  else
    let r := postStep b s.second s.bookings
    { s with second := r.1, bookings := r.2 }

/-- The state after the operations of a schedule, an interleaving of the two
calls. -/
def runRace (a b : PostCall) (schedule : List Bool) (bookings : List Booking) : RaceState :=
  schedule.foldl (raceStep a b) ⟨.start, .start, bookings⟩

/-- Whether a call has created a booking: it was answered with status 200. -/
def PostPhase.created : PostPhase → Bool
  | .done response => response.status == 200
  | _ => false

/-! ## getValidBikeImages (bikeController.js, routes/api/bikes.js) -/

/-- The call `text.includes(needle)` on the characters of the strings. -/
def includesChars (needle : List Char) : List Char → Bool
  | [] => needle.isEmpty
  | c :: cs => needle.isPrefixOf (c :: cs) || includesChars needle cs

/-- The call `text.includes(needle)`. -/
def includes (text needle : String) : Bool :=
  includesChars needle.toList text.toList

/-- The call `text.startsWith(start)`. -/
def startsWith (text start : String) : Bool :=
  start.toList.isPrefixOf text.toList

/-- The test `text.trim() !== ''`. -/
def notBlank (text : String) : Bool :=
  !(text.toList.all Char.isWhitespace)

/-- The argument `bike` of `getValidBikeImages`: `images` is `none` when the
path is missing or is not an array, and an element of the array is `none`
when it is not a string. -/
structure BikeImages where
  images : Option (List (Option String))
  deriving DecidableEq, Repr

/-- The filter of `getValidBikeImages` in `bikeController.js`. -/
def validImage (img : Option String) : Bool :=
  match img with
  | none => false
  | some s =>
    s != "" && notBlank s &&
      (startsWith s "data:image/" || startsWith s "http" || startsWith s "/uploads/" ||
        (!includes s "placeholder" && s != "/images/placeholder-bike.jpg" &&
          s != "/images/placeholder.jpg"))

/-- The strings among the elements of an array. -/
def stringsOf (images : List (Option String)) : List String :=
  images.filterMap id

/-- The function `getValidBikeImages(bike)` of `bikeController.js`; `bike` is
`none` when it is null or undefined. -/
def getValidBikeImages (bike : Option BikeImages) : List String :=
  match bike with
  | none => ["/images/default-bike.jpg"]
  | some b =>
    match b.images with
    | none => ["/images/default-bike.jpg"]
    | some [] => ["/images/default-bike.jpg"]
    | some images =>
      let validImages := stringsOf (images.filter validImage)
      if validImages.length > 0 then validImages else ["/images/default-bike.jpg"]

/-- The filter of `getValidBikeImages` in `routes/api/bikes.js`. -/
def apiValidImage (img : Option String) : Bool :=
  match img with
  | none => false
  | some s =>
    s != "" && notBlank s && !includes s "placeholder" &&
      s != "/images/placeholder-bike.jpg" && s != "/images/placeholder.jpg"

/-- The function `getValidBikeImages(bike)` of `routes/api/bikes.js`. -/
def apiValidBikeImages (bike : Option BikeImages) : List String :=
  match bike with
  | none => []
  | some b =>
    match b.images with
    | none => []
    | some images => stringsOf (images.filter apiValidImage)

/-! ## checkRole (middleware/checkRole.js) -/

/-- The object `req.session.user`; `role` is `none` when the path is not
set. -/
structure SessionUser where
  id : String
  role : Option String
  deriving DecidableEq, Repr

/-- What the middleware does with a request: it calls `next()`, or it
answers with a status, as JSON or as the rendered error page. -/
inductive RoleResult where
  | next
  | denied (status : Nat) (json : Bool) (message : String)
  deriving DecidableEq, Repr

/-- The answer of the middleware when access is denied. -/
def accessDenied (xhr : Bool) (path : String) : RoleResult :=
  if xhr || includes path "/api/" then
    .denied 403 true "Access denied. You do not have the required role."
  else .denied 403 false "Access denied. You do not have the required role."

/-- The middleware `checkRole(allowedRoles)` on a request with the session
user `user`, the flag `req.xhr` and the path `req.path`. -/
def checkRole (allowedRoles : List String) (user : Option SessionUser) (xhr : Bool)
    (path : String) : RoleResult :=
  match user with
  | none => accessDenied xhr path
  | some u =>
    match u.role with
    | none => accessDenied xhr path
    | some role =>
      if role = "" then accessDenied xhr path
      else if allowedRoles.contains role then .next
      else accessDenied xhr path

/-! ## timeSince (models/Review.js, models/Message.js) -/

/-- The count and the unit that the virtual `timeSince` shows for a document
created at `createdAt`, read at `now`. -/
def timeSinceParts (createdAt now : Int) : Int × String :=
  let diff := now - createdAt
  let seconds := diff / 1000
  if seconds < 60 then (seconds, "second")
  else
    let minutes := seconds / 60
    if minutes < 60 then (minutes, "minute")
    else
      let hours := minutes / 60
      if hours < 24 then (hours, "hour")
      else
        let days := hours / 24
        if days < 7 then (days, "day")
        else
          let weeks := days / 7
          if weeks < 4 then (weeks, "week")
          else
            let months := days / 30
            if months < 12 then (months, "month")
            else (days / 365, "year")

/-- The text `count unit(s) ago`, with the plural unless the count is 1. -/
def agoText (part : Int × String) : String :=
  toString part.1 ++ " " ++ part.2 ++ (if part.1 ≠ 1 then "s" else "") ++ " ago"

/-- The virtual `timeSince` of a review and of a message. -/
def timeSince (createdAt now : Int) : String :=
  agoText (timeSinceParts createdAt now)

/-! ## Changing the status of a booking -/

/-- The value of the `status` path named by a string, `none` for a string
outside the `enum` of the schema. -/
def statusOfString (status : String) : Option Status :=
  if status = "pending" then some Status.pending
  else if status = "confirmed" then some Status.confirmed
  else if status = "completed" then some Status.completed
  else if status = "cancelled" then some Status.cancelled
  else if status = "declined" then some Status.declined
  else none

/-- The handler of PUT `/api/bookings/:id/status` behind
`ensureServiceProvider`, at the time `now`: the response and the bookings
afterwards. The validator accepts the five values of the `enum`; a booking
whose service is missing makes `booking.service.provider` throw, which is
answered with 500. -/
def statusRoute (services : List Service) (bookings : List Booking)
    (sessionUser : Option SessionUser) (xhr : Bool) (id status : String) (now : Int) :
    Response × List Booking :=
  let denied : Response :=
    if xhr then ⟨403, false, .message "Service provider access required."⟩
    else ⟨403, false, .message "Access denied. Service provider privileges are required."⟩
  match sessionUser with
  | none => (denied, bookings)
  | some user =>
    if user.role ≠ some "serviceProvider" then (denied, bookings)
    else
      match statusOfString status with
      | none => (⟨400, false, .errors ["Status is required"]⟩, bookings)
      | some newStatus =>
        match findBooking bookings id with
        | none => (⟨404, false, .message "Booking not found"⟩, bookings)
        | some booking =>
          match findService services booking.service with
          | none => (⟨500, false, .message "Server error"⟩, bookings)
          | some service =>
            if service.provider ≠ user.id then
              (⟨403, false, .message "Not authorized to update this booking"⟩, bookings)
            else
              let booking1 :=
                { booking with
                  status := newStatus,
                  confirmedAt :=
                    if newStatus = Status.confirmed then some now else booking.confirmedAt,
                  completedAt :=
                    if newStatus = Status.completed then some now else booking.completedAt }
              (⟨200, true, .booking ("Booking " ++ status ++ " successfully") booking1⟩,
                saveBooking bookings booking1)

/-- The function `updateBookingStatus(bookingId, status, notes)` of the
controller at the time `now`: the thrown error or the updated booking, and the
bookings afterwards. `validStatuses` leaves out `declined`. The update is
written by `findByIdAndUpdate` before the notification reads the title of the
service, which throws when the service is missing. -/
def updateBookingStatus (services : List Service) (bookings : List Booking)
    (bookingId status : String) (notes : Option String) (now : Int) :
    Except String Booking × List Booking :=
  if !(["pending", "confirmed", "completed", "cancelled"].contains status) then
    (.error "Invalid booking status", bookings)
  else
    match statusOfString status, findBooking bookings bookingId with
    | some newStatus, some booking =>
      let booking1 :=
        { booking with
          status := newStatus,
          providerNotes := notes,
          confirmedAt := if newStatus = Status.confirmed then some now else booking.confirmedAt,
          completedAt := if newStatus = Status.completed then some now else booking.completedAt,
          cancelledAt := if newStatus = Status.cancelled then some now else booking.cancelledAt }
      if newStatus ≠ Status.pending ∧ (findService services booking.service).isNone then
        (.error "TypeError", saveBooking bookings booking1)
      else (.ok booking1, saveBooking bookings booking1)
    | _, _ => (.error "Booking not found", bookings)

/-! ## Sequences of booking operations -/

/-- A call of one of the six booking operations, with its arguments. -/
inductive BookingOp where
  | post (sessionUser : Option String) (xhr : Bool) (newId : String) (req : BookingRequest)
  | create (newId : String) (data : BookingData)
  | putStatus (sessionUser : Option SessionUser) (xhr : Bool) (id status : String) (now : Int)
  | updateStatus (bookingId status : String) (notes : Option String) (now : Int)
  | putCancel (sessionUser : Option String) (xhr : Bool) (id : String) (now : Int)
  | cancel (bookingId userId : String) (now : Int)
  deriving DecidableEq, Repr

/-- The bookings after one operation: POST `/api/bookings`, `createBooking`,
PUT `/api/bookings/:id/status`, `updateBookingStatus`, PUT
`/api/bookings/:id/cancel` or `cancelBooking`. -/
def applyOp (services : List Service) (owned : String → String → Bool)
    (bookings : List Booking) (op : BookingOp) : List Booking :=
  match op with
  | .post sessionUser xhr newId req => (postBooking services bookings sessionUser xhr newId req).2
  | .create newId data => (createBooking services owned bookings newId data).2
  | .putStatus sessionUser xhr id status now =>
    (statusRoute services bookings sessionUser xhr id status now).2
  | .updateStatus bookingId status notes now =>
    (updateBookingStatus services bookings bookingId status notes now).2
  | .putCancel sessionUser xhr id now => (cancelRoute bookings sessionUser xhr id now).2
  | .cancel bookingId userId now => (cancelBooking services bookings bookingId userId now).2

/-- The bookings after a sequence of operations. -/
def applyOps (services : List Service) (owned : String → String → Bool)
    (ops : List BookingOp) (bookings : List Booking) : List Booking :=
  ops.foldl (applyOp services owned) bookings

/-! ## Scenario data -/

/-- Monday schedule of scenario A: open 09:00 to 12:00. -/
def scenarioDay : DayAvailability :=
  { available := true, startTime := some "09:00", endTime := some "12:00" }

/-- Scenario A as the plain object that `getServiceAvailability` looks for:
an entry keyed `monday` and a `slotDuration` of 60. -/
def scenarioService : Service :=
  { id := "64b7f0a1c2d3e4f5a6b7c8d9", provider := "p1", price := 100,
    availability := .byName [("monday", scenarioDay)], slotDuration := some 60 }

/-- Identifier of the scenario service. -/
def scenarioId : String := "64b7f0a1c2d3e4f5a6b7c8d9"

/-- Scenario A as the plain object that the availability route looks for: an
array of day objects. -/
def scenarioRouteService : Service :=
  { id := scenarioId, provider := "p1", price := 100,
    availability := .asArray [⟨"Monday", true, some "09:00", some "12:00"⟩],
    slotDuration := none }

/-- Service of scenario A as `models/Service.js` stores it: Monday among its
days, open 09:00 to 12:00. -/
def storedService : Service :=
  { id := scenarioId, provider := "p1", price := 100,
    availability := .daysHours ["Monday"] (some "09:00") (some "12:00"),
    slotDuration := none }

/-- A booking of the scenario service on Monday 2024-01-01 at `time`, made
by user `u1`, with every required path set. -/
def scenarioBooking (id time : String) (status : Status) : Booking :=
  { id := id, service := scenarioId, user := "u1", status := status,
    scheduledDate := "2024-01-01", scheduledTime := time,
    bookingDate := newDateTime "2024-01-01" time,
    cancelledAt := none, cancelledBy := none, provider := "p1", price := some 100 }

/-- The instant 2024-01-01 09:00, one hour before the 10:00 slot. -/
def oneHourBefore : Int := 1704099600000

/-- A booking whose scheduled time is not an `HH:MM` time. -/
def unparsableBooking (status : Status) : Booking :=
  scenarioBooking "b9" "10 am" status

/-- A request for the scenario service on 2024-01-01 at `time`. -/
def scenarioRequest (time : String) : BookingRequest :=
  { serviceId := scenarioId, date := "2024-01-01", time := time, notes := "" }

/-- The argument of `createBooking` for the scenario service on 2024-01-01 at
10:00, for the bike `k1` of user `u1`. -/
def scenarioData : BookingData :=
  { serviceId := scenarioId, bikeId := "k1", userId := "u1", date := "2024-01-01",
    time := "10:00", notes := "" }

/-- A listing of the scenarios: an available motorcycle with the given
brand, category, price and creation time. -/
def scenarioBike (id brand category : String) (price createdAt : Int) : Bike :=
  { id := id, seller := "u1", title := brand, description := "well kept",
    brand := brand, model := "m", year := 2020, price := price, condition := "Good",
    fuelType := "Petrol", category := category, location := "Pune",
    availability := "available", createdAt := createdAt }

/-- A regular expression engine for the scenarios: the pattern matches a text
equal to it. -/
def exactRegex (pattern text : String) : Bool :=
  pattern == text

/-- A database for the scenarios that accepts every search pattern without
an opening parenthesis. -/
def plainPattern (pattern : String) : Bool :=
  !includes pattern "("

/-- A call for the scenario service on 2024-01-01 at 10:00 by `userId`. -/
def raceCall (userId newId : String) : PostCall :=
  { userId := userId, newId := newId, req := scenarioRequest "10:00",
    service := storedService, dateTime := 1704103200000 }

/-- A listing of the scenarios that is sold: it is not in the pool of
available listings. -/
def soldBike (id brand category : String) (price year : Int) : Bike :=
  { scenarioBike id brand category price 0 with year := year, availability := "sold" }

/-- Milliseconds in a day, as a number of days of age. -/
def daysAgo (days : Int) : Int := days * 86400000

/-! ## Lemmas on the slot loop -/

theorem slotLoop_eq (stop step : Int) :
    ∀ (n : Nat) (current : Int) (acc : List String),
      (∀ k : Nat, current + k * step < stop ↔ k < n) →
      ∀ fuel, n ≤ fuel →
        slotLoop fuel current stop step acc =
          some (acc ++ (List.range n).map
            (fun k : Nat => toLocaleTimeString (current + (k : Int) * step))) := by
  intro n
  induction n with
  | zero =>
    intro current acc h fuel _
    have h0 : ¬ current < stop := by
      have := h 0
      simpa using this
    cases fuel <;> simp [slotLoop, h0]
  | succ n ih =>
    intro current acc h fuel hfuel
    have h0 : current < stop := by
      have := (h 0).2 (Nat.succ_pos n)
      simpa using this
    obtain ⟨f, rfl⟩ : ∃ f, fuel = f + 1 := ⟨fuel - 1, by omega⟩
    have hstep : ∀ k : Nat, current + step + k * step < stop ↔ k < n := by
      intro k
      have := h (k + 1)
      rw [Nat.succ_lt_succ_iff] at this
      rw [← this]
      push_cast
      constructor <;> intro h1 <;> linarith
    rw [slotLoop, if_pos h0, ih (current + step) _ hstep f (by omega)]
    rw [List.range_succ_eq_map, List.map_cons, List.map_map]
    simp only [List.append_assoc, List.singleton_append, Nat.cast_zero, zero_mul, add_zero]
    congr 3
    refine List.map_congr_left (fun k _ => ?_)
    simp only [Function.comp, Nat.cast_succ]
    congr 1
    ring

theorem slot_count_exists (a b d : Int) (hd : 0 < d) :
    ∃ n : Nat, ∀ k : Nat, a + k * d < b ↔ k < n := by
  refine ⟨((b - a + d - 1) / d).toNat, fun k => ?_⟩
  rw [Int.lt_toNat, Int.lt_iff_add_one_le (a := (k : Int)), Int.le_ediv_iff_mul_le hd]
  constructor <;> intro h <;> nlinarith

theorem toLocaleTimeString_minute (days m : Int) (h0 : 0 ≤ m) (h1 : m < 1440) :
    toLocaleTimeString (days * msPerDay + m * msPerMinute) = hhmm m := by
  unfold toLocaleTimeString
  congr 1
  simp only [msPerDay, msPerMinute]
  omega

theorem parseTimeOfDay_ne_empty (s : String) (m : Nat) (h : parseTimeOfDay s = some m) :
    s ≠ "" := by
  rintro rfl
  simp [parseTimeOfDay] at h

theorem generateTimeSlots_minutes (days : Int) (sMin eMin : Nat) (d : Int) (hd : 0 < d)
    (he : eMin ≤ 1440) (n : Nat) (hn : ∀ k : Nat, (sMin : Int) + k * d < eMin ↔ k < n)
    (fuel : Nat) (hfuel : n ≤ fuel) :
    generateTimeSlots fuel (some (days * msPerDay + sMin * msPerMinute))
        (some (days * msPerDay + eMin * msPerMinute)) d =
      some ((List.range n).map (fun k : Nat => hhmm (sMin + (k : Int) * d))) := by
  have hms : ∀ k : Nat, days * msPerDay + sMin * msPerMinute + (k : Int) * (d * msPerMinute) =
      days * msPerDay + (sMin + (k : Int) * d) * msPerMinute := fun k => by ring
  have hloop : ∀ k : Nat, days * msPerDay + sMin * msPerMinute + (k : Int) * (d * msPerMinute) <
      days * msPerDay + eMin * msPerMinute ↔ k < n := by
    intro k
    rw [hms, ← hn k]
    simp only [msPerMinute]
    omega
  rw [generateTimeSlots, slotLoop_eq _ _ n _ [] hloop fuel hfuel, List.nil_append]
  congr 1
  refine List.map_congr_left (fun k hk => ?_)
  rw [hms]
  have hk : (sMin : Int) + k * d < eMin := (hn k).2 (List.mem_range.1 hk)
  have h0 : (0 : Int) ≤ k * d := mul_nonneg (Int.ofNat_nonneg k) hd.le
  exact toLocaleTimeString_minute days _ (by omega) (by omega)

theorem parseTimeOfDay_le (s : String) (m : Nat) (h : parseTimeOfDay s = some m) :
    m ≤ 1440 := by
  unfold parseTimeOfDay at h
  split at h
  · split at h
    · split at h
      · cases h; omega
      · cases h
    · cases h
  · cases h

theorem digitVal_digitChar (n : Nat) : digitVal (digitChar n) = some (n % 10) := by
  unfold digitChar
  have h : n % 10 < 10 := Nat.mod_lt _ (by decide)
  generalize n % 10 = i at h
  interval_cases i <;> rfl

theorem parseTimeOfDay_hhmm (m : Int) (h0 : 0 ≤ m) (h1 : m < 1440) :
    parseTimeOfDay (hhmm m) = some m.toNat := by
  have hh : (m / 60).toNat < 24 := by omega
  have hm : (m % 60).toNat < 60 := by omega
  have hsum : (m / 60).toNat * 60 + (m % 60).toNat = m.toNat := by omega
  unfold hhmm
  generalize (m / 60).toNat = h at hh hsum
  generalize (m % 60).toNat = mi at hm hsum
  have e1 : 10 * (h / 10 % 10) + h % 10 = h := by omega
  have e2 : 10 * (mi / 10 % 10) + mi % 10 = mi := by omega
  simp only [parseTimeOfDay, String.toList, twoDigits, digitVal_digitChar, e1, e2]
  rw [if_pos (Or.inl ⟨hh, hm⟩), hsum]

theorem candidateSlots_shape (service : Service) (day : DayAvailability) (date : String)
    (hd : 0 < slotDurationOf service) :
    ∃ (n sMin eMin : Nat), eMin ≤ 1440 ∧
      (∀ k : Nat, (sMin : Int) + k * slotDurationOf service < eMin ↔ k < n) ∧
      ∀ fuel, n ≤ fuel →
        candidateSlots fuel service day date =
          some ((List.range n).map
            (fun k : Nat => hhmm (sMin + (k : Int) * slotDurationOf service))) := by
  have hempty : ∀ k : Nat, ((0 : Nat) : Int) + k * slotDurationOf service < (0 : Nat) ↔ k < 0 := by
    intro k
    have h0 : (0 : Int) ≤ k * slotDurationOf service := mul_nonneg (Int.ofNat_nonneg k) hd.le
    constructor
    · intro h; push_cast at h; omega
    · intro h; omega
  simp only [candidateSlots, newDateTime]
  cases hdate : parseDate date with
  | none => exact ⟨0, 0, 0, by omega, hempty, fun fuel _ => by simp [generateTimeSlots]⟩
  | some days =>
    cases hs : parseTimeOfDay (strOr day.startTime "09:00") with
    | none => exact ⟨0, 0, 0, by omega, hempty, fun fuel _ => by simp [generateTimeSlots]⟩
    | some sMin =>
      cases he : parseTimeOfDay (strOr day.endTime "17:00") with
      | none => exact ⟨0, 0, 0, by omega, hempty, fun fuel _ => by simp [generateTimeSlots]⟩
      | some eMin =>
        obtain ⟨n, hn⟩ := slot_count_exists sMin eMin (slotDurationOf service) hd
        have hle := parseTimeOfDay_le _ _ he
        exact ⟨n, sMin, eMin, hle, hn, fun fuel hfuel =>
          generateTimeSlots_minutes days sMin eMin _ hd hle n hn fuel hfuel⟩

theorem slots_pairwise (n sMin eMin : Nat) (d : Int) (hd : 0 < d) (he : eMin ≤ 1440)
    (hn : ∀ k : Nat, (sMin : Int) + k * d < eMin ↔ k < n) :
    ((List.range n).map (fun k : Nat => hhmm (sMin + (k : Int) * d))).Pairwise timeBefore := by
  rw [List.pairwise_map]
  refine (List.pairwise_lt_range n).imp_of_mem ?_
  intro a b ha hb hab
  have ha1 := (hn a).2 (List.mem_range.1 ha)
  have hb1 := (hn b).2 (List.mem_range.1 hb)
  have ha0 : (0 : Int) ≤ a * d := mul_nonneg (Int.ofNat_nonneg a) hd.le
  have hb0 : (0 : Int) ≤ b * d := mul_nonneg (Int.ofNat_nonneg b) hd.le
  have hlt : (a : Int) * d < b * d := mul_lt_mul_of_pos_right (by exact_mod_cast hab) hd
  unfold timeBefore
  rw [parseTimeOfDay_hhmm _ (by omega) (by omega), parseTimeOfDay_hhmm _ (by omega) (by omega)]
  show _ < _
  omega

theorem timeBefore_irrefl (a : String) : ¬ timeBefore a a := by
  unfold timeBefore
  split
  · rename_i x y hx hy
    rw [hx] at hy
    cases hy
    exact lt_irrefl _
  · exact id

/-! ## Services read through the model -/

theorem findService_isMongoId (services : List Service) (id : String) (service : Service)
    (h : findService services id = some service) : isMongoId id = true := by
  unfold findService at h
  split at h
  · assumption
  · cases h

theorem dayAvailabilityOf_stored (service : Service) (date : String)
    (h : service.stored = true) : dayAvailabilityOf service date = none := by
  unfold Service.stored at h
  unfold dayAvailabilityOf
  cases hav : service.availability <;> simp_all

theorem getServiceAvailability_stored (fuel : Nat) (services : List Service)
    (bookings : List Booking) (id date : String) (service : Service)
    (hfind : findService services id = some service) (hst : service.stored = true) :
    getServiceAvailability fuel services bookings id date = some (.ok []) := by
  simp [getServiceAvailability, findService_isMongoId services id service hfind, hfind,
    dayAvailabilityOf_stored service date hst]

theorem availabilityRoute_stored (fuel : Nat) (services : List Service)
    (bookings : List Booking) (id date : String) (service : Service)
    (hid : isMongoId id = true) (hdate : date ≠ "")
    (hfind : findService services id = some service) (hst : service.stored = true) :
    availabilityRoute fuel services bookings id (some date) =
      some ⟨500, false, .message "Server error"⟩ := by
  unfold Service.stored at hst
  cases hav : service.availability <;> simp_all [availabilityRoute]

/-! ## C1: the candidate slot list -/

/-- C1 on the code: the service of scenario A, as `models/Service.js` stores
it (Monday among its days, open 09:00 to 12:00, no `slotDuration`), has no
entry under the key `monday`; `getServiceAvailability` builds no candidate
list for it and returns the empty list, with every fuel, where the
specification gives 09:00, 10:00 and 11:00. The slot loop itself steps as
specified: on the times 09:00 and 12:00 it gives these three slots for the
step 60 and six slots for the step 30, and so does the function on a plain
object that carries the entry `monday` and the `slotDuration` 30. -/
theorem stored_service_no_candidates :
    storedService.stored = true ∧
    findService [storedService] scenarioId = some storedService ∧
    dayAvailabilityOf storedService "2024-01-01" = none ∧
    (∀ fuel : Nat,
      getServiceAvailability fuel [storedService] [] scenarioId "2024-01-01" = some (.ok [])) ∧
    generateTimeSlots 3 (newDateTime "2024-01-01" "09:00") (newDateTime "2024-01-01" "12:00")
        60 = some ["09:00", "10:00", "11:00"] ∧
    generateTimeSlots 6 (newDateTime "2024-01-01" "09:00") (newDateTime "2024-01-01" "12:00")
        30 = some ["09:00", "09:30", "10:00", "10:30", "11:00", "11:30"] ∧
    candidateSlots 6 { scenarioService with slotDuration := some 30 } scenarioDay
        "2024-01-01" = some ["09:00", "09:30", "10:00", "10:30", "11:00", "11:30"] :=
  ⟨by decide, by decide, by decide,
    fun fuel => getServiceAvailability_stored fuel [storedService] [] scenarioId "2024-01-01"
      storedService (by decide) (by decide),
    by decide, by decide, by decide⟩

/-! ## C2: booked times are removed -/

/-- C2 on the code: for the stored service of scenario A on Monday 2024-01-01
`getServiceAvailability` returns the empty list, without booking and with the
confirmed booking at 10:00 of scenario B, although no booking holds 09:00 or
11:00; the specification gives 09:00, 10:00, 11:00 and 09:00, 11:00. The query
for the booked times has the specified scope: it finds the confirmed booking
and not a cancelled one. -/
theorem stored_service_returns_no_slot :
    getServiceAvailability 3 [storedService] [] scenarioId "2024-01-01" = some (.ok []) ∧
    getServiceAvailability 3 [storedService] [scenarioBooking "b1" "10:00" Status.confirmed]
        scenarioId "2024-01-01" = some (.ok []) ∧
    (existingBookings [scenarioBooking "b1" "10:00" Status.confirmed] scenarioId
        "2024-01-01").map (·.scheduledTime) = ["10:00"] ∧
    existingBookings [scenarioBooking "b1" "10:00" Status.cancelled] scenarioId
        "2024-01-01" = [] := by
  decide

/-! ## C3: the returned list is strictly ascending -/

/-- C3: for a slot duration `d > 0`, every date and every set of bookings, the
list returned by `getServiceAvailability` is strictly ascending by time of day
and has no duplicate. -/
theorem getServiceAvailability_sorted (services : List Service) (bookings : List Booking)
    (serviceId date : String) (service : Service)
    (hfind : findService services serviceId = some service)
    (hd : 0 < slotDurationOf service) :
    ∃ (n : Nat) (result : List String),
      (∀ fuel, n ≤ fuel →
        getServiceAvailability fuel services bookings serviceId date = some (.ok result)) ∧
      result.Pairwise timeBefore ∧ result.Nodup := by
  have hnodup : ∀ l : List String, l.Pairwise timeBefore → l.Nodup := by
    intro l hl
    refine List.Pairwise.imp ?_ hl
    intro a b hab heq
    subst heq
    exact timeBefore_irrefl a hab
  have hid := findService_isMongoId services serviceId service hfind
  cases hday : dayAvailabilityOf service date with
  | none =>
    exact ⟨0, [], fun fuel _ => by simp [getServiceAvailability, hid, hfind, hday],
      List.Pairwise.nil, List.nodup_nil⟩
  | some day =>
    cases hav : day.available with
    | false =>
      exact ⟨0, [], fun fuel _ => by simp [getServiceAvailability, hid, hfind, hday, hav],
        List.Pairwise.nil, List.nodup_nil⟩
    | true =>
      obtain ⟨n, sMin, eMin, he, hn, hc⟩ := candidateSlots_shape service day date hd
      have hp := (slots_pairwise n sMin eMin _ hd he hn).sublist
        (List.filter_sublist (p := fun time =>
          !((existingBookings bookings serviceId date).map (·.scheduledTime)).contains time) _)
      refine ⟨n, _, fun fuel hfuel => ?_, hp, hnodup _ hp⟩
      simp only [getServiceAvailability, hid, hfind, hday, hav, hc fuel hfuel]
      rfl

/-- Scenario B is strictly ascending: the theorem applies to it. -/
theorem getServiceAvailability_sorted_witness :
    getServiceAvailability 3 [scenarioService] [scenarioBooking "b1" "10:00" Status.confirmed]
        scenarioId "2024-01-01" = some (.ok ["09:00", "11:00"]) ∧
    ∃ (n : Nat) (result : List String),
      (∀ fuel, n ≤ fuel →
        getServiceAvailability fuel [scenarioService]
          [scenarioBooking "b1" "10:00" Status.confirmed] scenarioId "2024-01-01" =
            some (.ok result)) ∧
      result.Pairwise timeBefore ∧ result.Nodup :=
  ⟨by decide, getServiceAvailability_sorted [scenarioService]
    [scenarioBooking "b1" "10:00" Status.confirmed] scenarioId "2024-01-01" scenarioService
    (by decide) (by decide)⟩

/-! ## C4: generated slots and the close -/

/-- C4: every service that `getServiceAvailability` receives is read through
`models/Service.js`. For such a service the function generates no slot at
all, for every date, every set of bookings and every fuel, so every slot that
it generates is contained before the close: `t + d ≤ e` holds for every time
`t` of the returned list, the slot duration `d` and every close `e`. -/
theorem generated_slots_contained (fuel : Nat) (services : List Service)
    (bookings : List Booking) (id date : String) (service : Service)
    (hfind : findService services id = some service) (hst : service.stored = true) :
    ∃ result : List String,
      getServiceAvailability fuel services bookings id date = some (.ok result) ∧
      result = [] ∧
      ∀ t ∈ result, ∀ (e : String) (tMin eMin : Nat),
        parseTimeOfDay t = some tMin → parseTimeOfDay e = some eMin →
        (tMin : Int) + slotDurationOf service ≤ eMin :=
  ⟨[], getServiceAvailability_stored fuel services bookings id date service hfind hst, rfl,
    fun t ht => absurd ht (List.not_mem_nil t)⟩

/-- The stored service of scenario A on Monday 2024-01-01: no slot is
generated. -/
theorem generated_slots_contained_witness :
    ∃ result : List String,
      getServiceAvailability 3 [storedService] [] scenarioId "2024-01-01" =
        some (.ok result) ∧
      result = [] ∧
      ∀ t ∈ result, ∀ (e : String) (tMin eMin : Nat),
        parseTimeOfDay t = some tMin → parseTimeOfDay e = some eMin →
        (tMin : Int) + slotDurationOf storedService ≤ eMin :=
  generated_slots_contained 3 [storedService] [] scenarioId "2024-01-01" storedService
    (by decide) (by decide)

/-! ## C5: closed days -/

/-- C5 on the code: the stored service of scenario A has no entry for Tuesday
2024-01-02. `getServiceAvailability` returns the empty list there, but the
availability route answers 500 with `Server error` where the specification
gives an empty slot list; it does so for every stored service that is found and every
date, the call `service.availability.find` not being a function. -/
theorem stored_service_route_fails :
    getServiceAvailability 0 [storedService] [scenarioBooking "b1" "10:00" Status.confirmed]
        scenarioId "2024-01-02" = some (.ok []) ∧
    availabilityRoute 0 [storedService] [scenarioBooking "b1" "10:00" Status.confirmed]
        scenarioId (some "2024-01-02") = some ⟨500, false, .message "Server error"⟩ ∧
    availabilityRoute 0 [storedService] [] scenarioId (some "2024-01-01") =
        some ⟨500, false, .message "Server error"⟩ ∧
    (∀ (fuel : Nat) (services : List Service) (bookings : List Booking) (id date : String)
      (service : Service), isMongoId id = true → date ≠ "" →
      findService services id = some service → service.stored = true →
      availabilityRoute fuel services bookings id (some date) =
        some ⟨500, false, .message "Server error"⟩) :=
  ⟨by decide, by decide, by decide,
    fun fuel services bookings id date service hid hdate hfind hst =>
      availabilityRoute_stored fuel services bookings id date service hid hdate hfind hst⟩

/-! ## C6: the availability route and the bookings -/

theorem routeBookings_eq_nil (bookings : List Booking) (serviceId : String) (midnight : Int) :
    routeBookings bookings serviceId midnight = [] := by
  simp [routeBookings, Booking.date]

theorem routeLoop_none_booked (booked : List (Option String)) (hb : ∀ x ∈ booked, x = none)
    (closeHour closeMinute : JsNum) :
    ∀ (fuel : Nat) (currentHour currentMinute : JsNum) (timeSlots : List String),
      routeLoop booked closeHour closeMinute fuel currentHour currentMinute timeSlots =
        routeLoop [] closeHour closeMinute fuel currentHour currentMinute timeSlots := by
  have hc : ∀ t : String, booked.contains (some t) = false := by
    intro t
    rw [← Bool.not_eq_true, List.contains_iff_exists_mem_beq]
    rintro ⟨x, hx, hxt⟩
    rw [hb x hx] at hxt
    simp at hxt
  intro fuel
  induction fuel with
  | zero => intro currentHour currentMinute timeSlots; rfl
  | succ fuel ih =>
    intro currentHour currentMinute timeSlots
    simp only [routeLoop, hc, List.contains_nil, ih]

/-- C6: no booking removes a time from the slots that the availability route
answers, whatever its status: the route answers the same with any set of
bookings as with none, so a time that is answered when there is no booking is
answered with the bookings too. The bookings are read through their paths
`date` and `timeSlot`, which no booking has; a list of booked time slots that
are all undefined leaves the loop of the route as it is without bookings. -/
theorem availabilityRoute_ignores_bookings (fuel : Nat) (services : List Service)
    (bookings : List Booking) (id : String) (date : Option String) :
    availabilityRoute fuel services bookings id date =
        availabilityRoute fuel services [] id date ∧
    (∀ (slots : List String) (t : String),
      availabilityRoute fuel services [] id date = some ⟨200, true, .slots slots⟩ →
      t ∈ slots →
      ∃ slots1, availabilityRoute fuel services bookings id date =
          some ⟨200, true, .slots slots1⟩ ∧ t ∈ slots1) ∧
    (∀ (closeHour closeMinute currentHour currentMinute : JsNum) (timeSlots : List String),
      routeLoop (bookings.map (·.timeSlot)) closeHour closeMinute fuel currentHour
          currentMinute timeSlots =
        routeLoop [] closeHour closeMinute fuel currentHour currentMinute timeSlots) := by
  have heq : availabilityRoute fuel services bookings id date =
      availabilityRoute fuel services [] id date := by
    simp only [availabilityRoute, routeBookings_eq_nil]
  refine ⟨heq, fun slots t h ht => ⟨slots, heq.trans h, ht⟩, ?_⟩
  intro closeHour closeMinute currentHour currentMinute timeSlots
  refine routeLoop_none_booked _ ?_ closeHour closeMinute fuel currentHour currentMinute
    timeSlots
  intro x hx
  obtain ⟨b, -, rfl⟩ := List.mem_map.1 hx
  rfl

/-! ## C7 to C9: the 24 hour rule -/

theorem moreThan24Hours_some (t now : Int) :
    moreThan24Hours (some t) now = true ↔ now + 24 * 3600000 < t := by
  simp only [moreThan24Hours, decide_eq_true_eq, gt_iff_lt]
  rw [lt_div_iff₀ (by norm_num)]
  constructor
  · intro h
    have h1 : ((24 * (1000 * 60 * 60) : Int) : ℚ) < ((t - now : Int) : ℚ) := by
      push_cast
      push_cast at h
      linarith
    have h2 := Int.cast_lt.1 h1
    omega
  · intro h
    have h1 : (24 * (1000 * 60 * 60) : Int) < t - now := by omega
    have h2 := (Int.cast_lt (R := ℚ)).2 h1
    push_cast at h2
    push_cast
    linarith

theorem moreThan24Hours_iff (d : Option Int) (now : Int) :
    moreThan24Hours d now = true ↔ ∃ t, d = some t ∧ now + 24 * 3600000 < t := by
  cases d with
  | none => simp [moreThan24Hours]
  | some t => simp [moreThan24Hours_some]

theorem canBeCancelled_true (b : Booking) (now : Int) :
    canBeCancelled b now = true ↔
      b.status ≠ Status.completed ∧ b.status ≠ Status.cancelled ∧
        ∃ t, newDateTime b.scheduledDate b.scheduledTime = some t ∧
          now + 24 * 3600000 < t := by
  unfold canBeCancelled
  by_cases h1 : b.status = Status.completed
  · simp [h1]
  · by_cases h2 : b.status = Status.cancelled
    · simp [h2]
    · simp only [h1, h2, if_false, ne_eq, not_false_eq_true, true_and]
      exact moreThan24Hours_iff _ _

/-- C7: `canBeCancelled()` is true exactly when the status is neither
completed nor cancelled and the date-time parsed from `scheduledDate` and
`scheduledTime` is strictly more than 24 hours after `now`. With an eligible
status, a booking at `now + 24h + 1min` is cancellable, and one at exactly
`now + 24h` or at `now + 23h59m` is not. -/
theorem canBeCancelled_iff (b : Booking) (now : Int) :
    (canBeCancelled b now = true ↔
      b.status ≠ Status.completed ∧ b.status ≠ Status.cancelled ∧
        ∃ t, newDateTime b.scheduledDate b.scheduledTime = some t ∧
          now + 24 * 3600000 < t) ∧
    (b.status ≠ Status.completed → b.status ≠ Status.cancelled →
      (newDateTime b.scheduledDate b.scheduledTime = some (now + 24 * 3600000 + 60000) →
        canBeCancelled b now = true) ∧
      (newDateTime b.scheduledDate b.scheduledTime = some (now + 24 * 3600000) →
        canBeCancelled b now = false) ∧
      (newDateTime b.scheduledDate b.scheduledTime = some (now + 23 * 3600000 + 59 * 60000) →
        canBeCancelled b now = false)) := by
  have hiff := canBeCancelled_true b now
  refine ⟨hiff, fun h1 h2 => ⟨fun ht => ?_, fun ht => ?_, fun ht => ?_⟩⟩
  · exact hiff.2 ⟨h1, h2, _, ht, by omega⟩
  · rw [← Bool.not_eq_true, hiff, ht]
    rintro ⟨-, -, t, ht1, hlt⟩
    cases ht1
    omega
  · rw [← Bool.not_eq_true, hiff, ht]
    rintro ⟨-, -, t, ht1, hlt⟩
    cases ht1
    omega

/-- A pending booking on 2024-01-02 at 10:01, 10:00 and 09:59 seen from
2024-01-01 10:00: only the first can be cancelled. -/
theorem canBeCancelled_iff_witness :
    canBeCancelled { scenarioBooking "b1" "10:01" Status.pending with
        scheduledDate := "2024-01-02" } 1704103200000 = true ∧
    canBeCancelled { scenarioBooking "b1" "10:00" Status.pending with
        scheduledDate := "2024-01-02" } 1704103200000 = false ∧
    canBeCancelled { scenarioBooking "b1" "09:59" Status.pending with
        scheduledDate := "2024-01-02" } 1704103200000 = false :=
  ⟨((canBeCancelled_iff _ 1704103200000).2 (by decide) (by decide)).1 (by decide),
   ((canBeCancelled_iff _ 1704103200000).2 (by decide) (by decide)).2.1 (by decide),
   ((canBeCancelled_iff _ 1704103200000).2 (by decide) (by decide)).2.2 (by decide)⟩

/-- C8: `canBeRescheduled()` is true exactly when the status is pending or
confirmed and the date-time parsed from `scheduledDate` and `scheduledTime`
is strictly more than 24 hours after `now`. -/
theorem canBeRescheduled_iff (b : Booking) (now : Int) :
    canBeRescheduled b now = true ↔
      (b.status = Status.pending ∨ b.status = Status.confirmed) ∧
        ∃ t, newDateTime b.scheduledDate b.scheduledTime = some t ∧
          now + 24 * 3600000 < t := by
  unfold canBeRescheduled
  by_cases h : b.status = Status.pending ∨ b.status = Status.confirmed
  · have h1 : ¬ (b.status ≠ Status.pending ∧ b.status ≠ Status.confirmed) := by tauto
    simp only [h1, if_false, h, true_and]
    exact moreThan24Hours_iff _ _
  · have h1 : b.status ≠ Status.pending ∧ b.status ≠ Status.confirmed := by tauto
    simp [h1, h]

/-- C9: when `scheduledDate` and `scheduledTime` do not parse to a date-time,
`canBeCancelled()` and `canBeRescheduled()` are both false, for every status
and every current time; both are total functions, so neither raises. -/
theorem unparsable_fails_closed (b : Booking) (now : Int)
    (h : newDateTime b.scheduledDate b.scheduledTime = none) :
    canBeCancelled b now = false ∧ canBeRescheduled b now = false := by
  unfold canBeCancelled canBeRescheduled
  rw [h]
  refine ⟨?_, ?_⟩
  · split
    · rfl
    · split <;> rfl
  · split <;> rfl

/-- A pending booking at the time `10 am` can neither be cancelled nor
rescheduled. -/
theorem unparsable_fails_closed_witness :
    newDateTime (unparsableBooking Status.pending).scheduledDate
        (unparsableBooking Status.pending).scheduledTime = none ∧
    canBeCancelled (unparsableBooking Status.pending) 0 = false ∧
    canBeRescheduled (unparsableBooking Status.pending) 0 = false :=
  ⟨by decide, unparsable_fails_closed (unparsableBooking Status.pending) 0 (by decide)⟩

/-! ## C10: cancelling ignores the 24 hour rule -/

/-- C10 on the code: one hour before a pending booking, `canBeCancelled()` is
false, yet the cancel route answers 200 and stores the booking as cancelled,
and so does `cancelBooking`, which also cancels a completed booking. -/
theorem cancel_ignores_policy :
    canBeCancelled (scenarioBooking "b1" "10:00" Status.pending) oneHourBefore = false ∧
    (cancelRoute [scenarioBooking "b1" "10:00" Status.pending] (some "u1") true "b1"
        oneHourBefore).1.status = 200 ∧
    ((cancelRoute [scenarioBooking "b1" "10:00" Status.pending] (some "u1") true "b1"
        oneHourBefore).2.map (·.status)) = [Status.cancelled] ∧
    (cancelBooking [scenarioService] [scenarioBooking "b1" "10:00" Status.pending] "b1" "u1"
        oneHourBefore).1 = .ok () ∧
    ((cancelBooking [scenarioService] [scenarioBooking "b1" "10:00" Status.pending] "b1" "u1"
        oneHourBefore).2.map (·.status)) = [Status.cancelled] ∧
    ((cancelBooking [scenarioService] [scenarioBooking "b1" "10:00" Status.completed] "b1" "u1"
        oneHourBefore).2.map (·.status)) = [Status.cancelled] := by
  refine ⟨?_, by decide, by decide, by decide, by decide, by decide⟩
  rw [← Bool.not_eq_true, canBeCancelled_true]
  rintro ⟨-, -, t, ht, hlt⟩
  have hnd : newDateTime (scenarioBooking "b1" "10:00" Status.pending).scheduledDate
      (scenarioBooking "b1" "10:00" Status.pending).scheduledTime = some 1704103200000 := by
    decide
  rw [hnd] at ht
  cases ht
  revert hlt
  decide

/-! ## C11 to C13: creating bookings -/

theorem existingBooking_isSome (bookings : List Booking) (serviceId : String) (dateTime : Int) :
    (existingBooking bookings serviceId dateTime).isSome = true ↔
      ∃ b ∈ bookings, b.service = serviceId ∧ b.bookingDate = some dateTime ∧
        b.status ≠ Status.cancelled ∧ b.status ≠ Status.declined := by
  simp only [existingBooking, List.find?_isSome, Bool.and_eq_true, beq_iff_eq,
    Bool.not_eq_true', Bool.or_eq_false_iff, beq_eq_false_iff_ne, ne_eq]
  constructor
  · rintro ⟨b, hb, ⟨h1, h2⟩, h3, h4⟩
    exact ⟨b, hb, h1, h2, h3, h4⟩
  · rintro ⟨b, hb, h1, h2, h3, h4⟩
    exact ⟨b, hb, ⟨h1, h2⟩, h3, h4⟩

theorem postBooking_eq (services : List Service) (bookings : List Booking)
    (userId : String) (xhr : Bool) (newId : String) (req : BookingRequest)
    (service : Service) (dateTime : Int)
    (hvalid : bookingRequestErrors req = [])
    (hfind : findService services req.serviceId = some service)
    (hdt : (newDate req.date).bind (fun d => bookingDateTime d req.time) = some dateTime) :
    postBooking services bookings (some userId) xhr newId req =
      if (existingBooking bookings req.serviceId dateTime).isSome then (slotConflict, bookings)
      else (⟨500, false, .message "Server error"⟩, bookings) := by
  have hid := findService_isMongoId services req.serviceId service hfind
  simp only [postBooking, hvalid, ne_eq, not_true_eq_false, if_false, hid, Bool.not_true,
    Bool.false_eq_true, hfind, hdt]
  cases existingBooking bookings req.serviceId dateTime <;> simp [saveNew, Booking.valid]

theorem postBooking_bookings (services : List Service) (bookings : List Booking)
    (sessionUser : Option String) (xhr : Bool) (newId : String) (req : BookingRequest) :
    (postBooking services bookings sessionUser xhr newId req).2 = bookings := by
  unfold postBooking
  repeat' split
  all_goals first | rfl | simp_all [saveNew, Booking.valid]

theorem createBooking_bookings (services : List Service) (owned : String → String → Bool)
    (bookings : List Booking) (newId : String) (data : BookingData) :
    (createBooking services owned bookings newId data).2 = bookings := by
  unfold createBooking
  repeat' split
  all_goals first | rfl | simp_all [saveNew, Booking.valid]

/-- C11 on the code: a validated request for the stored scenario service on
2024-01-01 at 10:00, with no booking stored, is answered 500 with `Server
error` and no booking is created, where the specification has a pending
booking created; the same holds when the only booking of the slot is cancelled. The
document that the handler builds has neither `scheduledDate` nor
`scheduledTime`, so `save()` rejects it. The conflict half holds:
a confirmed booking of the slot gives the 400 answer, and no request ever
changes the bookings. -/
theorem postBooking_free_slot_fails :
    bookingRequestErrors (scenarioRequest "10:00") = [] ∧
    findService [storedService] (scenarioRequest "10:00").serviceId = some storedService ∧
    postBooking [storedService] [] (some "u1") true "n1" (scenarioRequest "10:00") =
      (⟨500, false, .message "Server error"⟩, []) ∧
    postBooking [storedService] [scenarioBooking "b1" "10:00" Status.cancelled] (some "u1")
        true "n1" (scenarioRequest "10:00") =
      (⟨500, false, .message "Server error"⟩,
        [scenarioBooking "b1" "10:00" Status.cancelled]) ∧
    postBooking [storedService] [scenarioBooking "b1" "10:00" Status.confirmed] (some "u1")
        true "n1" (scenarioRequest "10:00") =
      (⟨400, false,
        .message "This time slot is no longer available. Please choose another time."⟩,
        [scenarioBooking "b1" "10:00" Status.confirmed]) ∧
    (∀ (services : List Service) (bookings : List Booking) (sessionUser : Option String)
      (xhr : Bool) (newId : String) (req : BookingRequest),
      (postBooking services bookings sessionUser xhr newId req).2 = bookings) :=
  ⟨by decide, by decide, by decide, by decide, by decide, postBooking_bookings⟩

/-- C12 fails as stated: a completed booking of the service at the same
date-time makes the route answer with the slot conflict, although no booking
there is pending or confirmed. -/
theorem conflict_scope_counterexample :
    ¬ ∀ (services : List Service) (bookings : List Booking) (userId : String) (xhr : Bool)
        (newId : String) (req : BookingRequest) (service : Service) (dateTime : Int),
        bookingRequestErrors req = [] →
        findService services req.serviceId = some service →
        (newDate req.date).bind (fun d => bookingDateTime d req.time) = some dateTime →
        ((postBooking services bookings (some userId) xhr newId req).1 = slotConflict ↔
          ∃ b ∈ bookings, b.service = req.serviceId ∧ b.bookingDate = some dateTime ∧
            (b.status = Status.pending ∨ b.status = Status.confirmed)) := by
  intro h
  have h1 := (h [scenarioService] [scenarioBooking "b1" "10:00" Status.completed] "u1" true
    "n1" (scenarioRequest "10:00") scenarioService 1704103200000 (by decide) (by decide)
    (by decide)).1 (by decide)
  revert h1
  decide

/-- C12 as amended: the route rejects a creation request as a slot conflict
exactly when a booking of the same service at the same date-time has a status
other than cancelled and declined, that is pending, confirmed or completed;
a rejected request leaves the bookings unchanged. -/
theorem postBooking_conflict_iff (services : List Service) (bookings : List Booking)
    (userId : String) (xhr : Bool) (newId : String) (req : BookingRequest)
    (service : Service) (dateTime : Int)
    (hvalid : bookingRequestErrors req = [])
    (hfind : findService services req.serviceId = some service)
    (hdt : (newDate req.date).bind (fun d => bookingDateTime d req.time) = some dateTime) :
    ((postBooking services bookings (some userId) xhr newId req).1 = slotConflict ↔
      ∃ b ∈ bookings, b.service = req.serviceId ∧ b.bookingDate = some dateTime ∧
        (b.status = Status.pending ∨ b.status = Status.confirmed ∨
          b.status = Status.completed)) ∧
    ((postBooking services bookings (some userId) xhr newId req).1 = slotConflict →
      (postBooking services bookings (some userId) xhr newId req).2 = bookings) := by
  have h := postBooking_eq services bookings userId xhr newId req service dateTime hvalid
    hfind hdt
  have hstatus : ∀ b : Booking, (b.status ≠ Status.cancelled ∧ b.status ≠ Status.declined) ↔
      (b.status = Status.pending ∨ b.status = Status.confirmed ∨
        b.status = Status.completed) := by
    intro b
    cases b.status <;> simp
  have hiff : (postBooking services bookings (some userId) xhr newId req).1 = slotConflict ↔
      (existingBooking bookings req.serviceId dateTime).isSome = true := by
    rw [h]
    by_cases hex : (existingBooking bookings req.serviceId dateTime).isSome = true
    · simp [hex]
    · simp [hex, slotConflict]
  refine ⟨?_, fun hc => ?_⟩
  · rw [hiff, existingBooking_isSome]
    constructor
    · rintro ⟨b, hb, h1, h2, h3, h4⟩
      exact ⟨b, hb, h1, h2, (hstatus b).1 ⟨h3, h4⟩⟩
    · rintro ⟨b, hb, h1, h2, h3⟩
      exact ⟨b, hb, h1, h2, ((hstatus b).2 h3).1, ((hstatus b).2 h3).2⟩
  · rw [h, if_pos (hiff.1 hc)]

/-- A completed booking blocks the slot and a cancelled one does not. -/
theorem postBooking_conflict_iff_witness :
    (postBooking [scenarioService] [scenarioBooking "b1" "10:00" Status.completed] (some "u1")
        true "n1" (scenarioRequest "10:00")).1 = slotConflict ∧
    (postBooking [scenarioService] [scenarioBooking "b1" "10:00" Status.cancelled] (some "u1")
        true "n1" (scenarioRequest "10:00")).1 ≠ slotConflict :=
  ⟨((postBooking_conflict_iff [scenarioService]
      [scenarioBooking "b1" "10:00" Status.completed] "u1" true "n1" (scenarioRequest "10:00")
      scenarioService 1704103200000 (by decide) (by decide) (by decide)).1).2
      ⟨scenarioBooking "b1" "10:00" Status.completed, by decide, by decide, by decide,
        by decide⟩,
   fun hc => absurd (((postBooking_conflict_iff [scenarioService]
      [scenarioBooking "b1" "10:00" Status.cancelled] "u1" true "n1" (scenarioRequest "10:00")
      scenarioService 1704103200000 (by decide) (by decide) (by decide)).1).1 hc)
      (by decide)⟩

theorem applyOp_nil (services : List Service) (owned : String → String → Bool)
    (op : BookingOp) : applyOp services owned [] op = [] := by
  cases op with
  | post sessionUser xhr newId req => exact postBooking_bookings services [] _ _ _ _
  | create newId data => exact createBooking_bookings services owned [] _ _
  | putStatus sessionUser xhr id status now =>
    simp only [applyOp, statusRoute, findBooking, List.find?_nil]
    repeat' split
    all_goals rfl
  | updateStatus bookingId status notes now =>
    simp only [applyOp, updateBookingStatus, findBooking, List.find?_nil]
    repeat' split
    all_goals rfl
  | putCancel sessionUser xhr id now =>
    simp only [applyOp, cancelRoute, findBooking, List.find?_nil]
    repeat' split
    all_goals rfl
  | cancel bookingId userId now => rfl

theorem applyOps_nil (services : List Service) (owned : String → String → Bool)
    (ops : List BookingOp) : applyOps services owned ops [] = [] := by
  induction ops with
  | nil => rfl
  | cons op ops ih =>
    unfold applyOps at ih ⊢
    rw [List.foldl_cons, applyOp_nil, ih]

/-- C13: from the empty booking set, every sequence of the six booking
operations leaves the set empty, so no two distinct bookings that hold their
slot share the service, the scheduled date and the scheduled time. Both
creation paths are rejected by the validation of `save()`: neither POST
`/api/bookings` nor `createBooking` ever adds a booking, to any set, and the
four other operations find no booking to change. -/
theorem slot_contention_invariant (services : List Service)
    (owned : String → String → Bool) :
    (∀ ops : List BookingOp,
      applyOps services owned ops [] = [] ∧
      slotContentionFree (applyOps services owned ops [])) ∧
    (∀ (bookings : List Booking) (sessionUser : Option String) (xhr : Bool) (newId : String)
      (req : BookingRequest),
      (postBooking services bookings sessionUser xhr newId req).2 = bookings) ∧
    (∀ (bookings : List Booking) (newId : String) (data : BookingData),
      (createBooking services owned bookings newId data).2 = bookings) ∧
    createBooking [storedService] (fun _ _ => true) [] "n1" scenarioData =
      (.error "ValidationError", []) ∧
    applyOps [storedService] (fun _ _ => true)
      [.create "n1" scenarioData, .post (some "u1") true "n2" (scenarioRequest "10:00"),
        .create "n3" scenarioData, .putStatus (some ⟨"p1", some "serviceProvider"⟩) true "n1"
          "confirmed" 0, .cancel "n2" "u1" 0] [] = [] := by
  refine ⟨fun ops => ?_, postBooking_bookings services, createBooking_bookings services owned,
    by decide, by decide⟩
  rw [applyOps_nil]
  exact ⟨rfl, fun a ha => absurd ha (List.not_mem_nil a)⟩

/-! ## C14: the filter of getBikes -/

theorem truthy_cases (x : Option String) :
    (truthy x = false ∧ ∀ s, x = some s → s = "") ∨
      ∃ s, x = some s ∧ s ≠ "" ∧ truthy x = true := by
  cases x with
  | none => exact Or.inl ⟨rfl, fun s h => by cases h⟩
  | some s =>
    by_cases hs : s = ""
    · exact Or.inl ⟨by simp [truthy, hs], fun t h => by cases h; exact hs⟩
    · exact Or.inr ⟨s, rfl, hs, by simp [truthy, hs]⟩

theorem eqOk_whenTruthy (x : Option String) (value : String) :
    eqOk (whenTruthy x) value = true ↔ ∀ s, x = some s → s ≠ "" → value = s := by
  rcases truthy_cases x with ⟨ht, hx⟩ | ⟨s, rfl, hs, ht⟩
  · simp only [whenTruthy, ht, eqOk, Bool.false_eq_true, if_false, true_iff]
    intro s h1 h2
    exact absurd (hx s h1) h2
  · simp only [whenTruthy, ht, eqOk, if_true, beq_iff_eq]
    constructor
    · intro h t ht1 _
      cases ht1
      exact h
    · intro h
      exact h s rfl hs

theorem searchOk_whenTruthy (regex : String → String → Bool) (x : Option String) (b : Bike) :
    searchOk regex (whenTruthy x) b = true ↔
      ∀ s, x = some s → s ≠ "" →
        (regex s b.title = true ∨ regex s b.description = true ∨ regex s b.brand = true ∨
          regex s b.model = true) := by
  rcases truthy_cases x with ⟨ht, hx⟩ | ⟨s, rfl, hs, ht⟩
  · simp only [whenTruthy, ht, searchOk, Bool.false_eq_true, if_false, true_iff]
    intro s h1 h2
    exact absurd (hx s h1) h2
  · simp only [whenTruthy, ht, searchOk, if_true, Bool.or_eq_true, or_assoc]
    constructor
    · intro h t ht1 _
      cases ht1
      exact h
    · intro h
      exact h s rfl hs

theorem rangeOk_buildRange (min max : Option String) (value : Int) :
    rangeOk (buildRange min max) value = true ↔
      (∀ s, min = some s → s ≠ "" → ∃ n, jsParseInt (some s) = some n ∧ n ≤ value) ∧
      (∀ s, max = some s → s ≠ "" → ∃ n, jsParseInt (some s) = some n ∧ value ≤ n) := by
  have hnone : ∀ x : Option String, (∀ s, x = some s → s = "") →
      ∀ (P : String → Prop) (s : String), x = some s → s ≠ "" → P s :=
    fun x hx P s h1 h2 => absurd (hx s h1) h2
  have hsome : ∀ (t : String) (P : String → Prop),
      (∀ s, some t = some s → s ≠ "" → P s) ↔ (t ≠ "" → P t) := by
    intro t P
    constructor
    · intro h ht
      exact h t rfl ht
    · intro h s hs hne
      cases hs
      exact h hne
  rcases truthy_cases min with ⟨hmin, hminx⟩ | ⟨a, rfl, ha, hmin⟩ <;>
    rcases truthy_cases max with ⟨hmax, hmaxx⟩ | ⟨b, rfl, hb, hmax⟩
  · simp only [buildRange, hmin, hmax, rangeOk, Bool.or_self, Bool.false_eq_true, if_false,
      true_iff]
    exact ⟨hnone min hminx _, hnone max hmaxx _⟩
  · rw [hsome b]
    simp only [buildRange, hmin, hmax, Bool.false_or, if_true, Bool.false_eq_true, if_false]
    cases hp : jsParseInt (some b) with
    | none => simp [rangeOk, gteOk, lteOk, hb]
    | some n =>
      simp only [rangeOk, gteOk, lteOk, Bool.true_and, decide_eq_true_eq, Option.some.injEq,
        exists_eq_left']
      exact ⟨fun h => ⟨hnone min hminx _, fun _ => h⟩, fun h => h.2 hb⟩
  · rw [hsome a]
    simp only [buildRange, hmin, hmax, Bool.or_false, if_true, Bool.false_eq_true, if_false]
    cases hp : jsParseInt (some a) with
    | none => simp [rangeOk, gteOk, lteOk, ha]
    | some n =>
      simp only [rangeOk, gteOk, lteOk, Bool.and_true, decide_eq_true_eq, Option.some.injEq,
        exists_eq_left']
      exact ⟨fun h => ⟨fun _ => h, hnone max hmaxx _⟩, fun h => h.1 ha⟩
  · rw [hsome a, hsome b]
    simp only [buildRange, hmin, hmax, Bool.or_self, if_true]
    cases hp : jsParseInt (some a) <;> cases hq : jsParseInt (some b) <;>
      simp [rangeOk, gteOk, lteOk, ha, hb]

/-- C14: a listing satisfies the filter built by `getBikes` exactly when its
availability is `available` and every parameter that is present and not empty
holds: brand, category, condition, fuelType and location equal the listing's
field; the number read from minPrice, maxPrice, minYear, maxYear bounds the
price or the year inclusively; and the search pattern matches the title, the
description, the brand or the model. Absent and empty parameters add no
condition, and the conditions combine as a conjunction. -/
theorem matchesFilter_iff (regex : String → String → Bool) (q : BikeQuery) (b : Bike) :
    matchesFilter regex (buildFilter q) b = true ↔
      b.availability = "available" ∧
      (∀ s, q.brand = some s → s ≠ "" → b.brand = s) ∧
      (∀ s, q.category = some s → s ≠ "" → b.category = s) ∧
      (∀ s, q.condition = some s → s ≠ "" → b.condition = s) ∧
      (∀ s, q.fuelType = some s → s ≠ "" → b.fuelType = s) ∧
      (∀ s, q.location = some s → s ≠ "" → b.location = s) ∧
      (∀ s, q.minPrice = some s → s ≠ "" → ∃ n, jsParseInt (some s) = some n ∧ n ≤ b.price) ∧
      (∀ s, q.maxPrice = some s → s ≠ "" → ∃ n, jsParseInt (some s) = some n ∧ b.price ≤ n) ∧
      (∀ s, q.minYear = some s → s ≠ "" → ∃ n, jsParseInt (some s) = some n ∧ n ≤ b.year) ∧
      (∀ s, q.maxYear = some s → s ≠ "" → ∃ n, jsParseInt (some s) = some n ∧ b.year ≤ n) ∧
      (∀ s, q.search = some s → s ≠ "" →
        (regex s b.title = true ∨ regex s b.description = true ∨ regex s b.brand = true ∨
          regex s b.model = true)) := by
  simp only [matchesFilter, buildFilter, Bool.and_eq_true, beq_iff_eq, eqOk_whenTruthy,
    searchOk_whenTruthy, rangeOk_buildRange]
  tauto

/-- Scenario D: a Yamaha of category Sport is excluded by the parameters
category Sport and brand Honda, and kept by category Sport alone. -/
theorem matchesFilter_iff_witness :
    matchesFilter exactRegex
        (buildFilter { emptyQuery with category := some "Sport", brand := some "Honda" })
        (scenarioBike "a" "Yamaha" "Sport" 100 1) = false ∧
    matchesFilter exactRegex (buildFilter { emptyQuery with category := some "Sport" })
        (scenarioBike "a" "Yamaha" "Sport" 100 1) = true :=
  ⟨by
    rw [← Bool.not_eq_true]
    intro h
    exact absurd (((matchesFilter_iff exactRegex _ _).1 h).2.1 "Honda" rfl (by decide))
      (by decide),
   (matchesFilter_iff exactRegex _ _).2 (by decide)⟩

/-! ## C15: pagination -/

theorem flatMap_pages {α : Type} (docs : List α) (k : Nat) :
    ∀ n : Nat, (List.range n).flatMap (fun i => (docs.drop (i * k)).take k) =
      docs.take (n * k) := by
  intro n
  induction n with
  | zero => simp
  | succ n ih =>
    rw [List.range_succ, List.flatMap_append, ih, List.flatMap_singleton, Nat.succ_mul,
      List.take_add]

theorem pageOf_pos {α : Type} (docs : List α) (p k : Nat) (hk : 0 < k) :
    pageOf docs ((p : Int) + 1) (k : Int) = some ((docs.drop (p * k)).take k) := by
  have h0 : ¬ ((p : Int) + 1 - 1) * (k : Int) < 0 := by
    have : (0 : Int) ≤ (p : Int) * k := mul_nonneg (Int.ofNat_nonneg p) (Int.ofNat_nonneg k)
    simpa using this
  have hk0 : (k : Int) ≠ 0 := by omega
  have hskip : (((p : Int) + 1 - 1) * (k : Int)).toNat = p * k := by
    rw [add_sub_cancel_right]
    exact_mod_cast Int.toNat_natCast (p * k)
  simp only [pageOf, skipLimit, skipOf, if_neg h0, if_neg hk0, hskip, Int.natAbs_cast]

theorem totalPages_cover (total k : Nat) (hk : 0 < k) :
    ∃ n : Nat, totalPagesOf total (k : Int) = n ∧ total ≤ n * k := by
  have hk0 : (0 : Int) < k := by exact_mod_cast hk
  have hnn : (0 : Int) ≤ ((total : Int) + k - 1) / k :=
    Int.ediv_nonneg (by omega) hk0.le
  obtain ⟨n, hn⟩ := Int.eq_ofNat_of_zero_le hnn
  refine ⟨n, hn, ?_⟩
  have h1 := Int.emod_add_ediv ((total : Int) + k - 1) k
  have h2 := Int.emod_lt_of_pos ((total : Int) + k - 1) hk0
  rw [hn] at h1
  have h3 : (total : Int) ≤ (n : Int) * k := by
    have : (k : Int) * n = n * k := mul_comm _ _
    omega
  exact_mod_cast h3

/-- C15: for a positive limit, the pages `1..totalPages` of a sequence, each
taken by `skip((p - 1) * limit)` and `limit(limit)` as `getBikes` and
`getAllBikes` do, concatenate to the whole sequence; every page has at most
`limit` records and every page after `totalPages` is empty. `getBikes` returns
such a page of its sorted matches, with `totalPages` counted on the matches. -/
theorem pagination_consistent {α : Type} (docs : List α) (limit : Int) (hl : 0 < limit) :
    (List.range (totalPagesOf docs.length limit).toNat).flatMap
        (fun i => (pageOf docs ((i : Int) + 1) limit).getD []) = docs ∧
    (∀ page : Int, 1 ≤ page →
      ∃ records, pageOf docs page limit = some records ∧ (records.length : Int) ≤ limit) ∧
    (∀ page : Int, totalPagesOf docs.length limit < page → pageOf docs page limit = some []) ∧
    (∀ (currentYear : Int) (regex : String → String → Bool) (bikes : List Bike)
      (q : BikeQuery),
      (getBikes currentYear regex bikes q).map (·.bikes) =
          pageOf (sortedMatches regex bikes q) (effectivePage q.page) bikesPerPage ∧
      ∀ view, getBikes currentYear regex bikes q = some view →
        view.totalPages = totalPagesOf (sortedMatches regex bikes q).length bikesPerPage ∧
        view.totalBikes = (sortedMatches regex bikes q).length) := by
  obtain ⟨k, rfl⟩ := Int.eq_ofNat_of_zero_le hl.le
  have hk : 0 < k := by exact_mod_cast hl
  obtain ⟨n, hn, hcover⟩ := totalPages_cover docs.length k hk
  refine ⟨?_, ?_, ?_, ?_⟩
  · rw [hn, Int.toNat_natCast]
    have hpages : (fun i : Nat => (pageOf docs ((i : Int) + 1) (k : Int)).getD []) =
        fun i : Nat => (docs.drop (i * k)).take k := by
      funext i
      rw [pageOf_pos docs i k hk]
      rfl
    rw [hpages, flatMap_pages, List.take_of_length_le hcover]
  · intro page hp
    obtain ⟨p, hp1⟩ := Int.eq_ofNat_of_zero_le (show (0 : Int) ≤ page - 1 by omega)
    have hpage : page = (p : Int) + 1 := by omega
    rw [hpage, pageOf_pos docs p k hk]
    refine ⟨_, rfl, ?_⟩
    rw [List.length_take]
    exact_mod_cast Nat.min_le_left _ _
  · intro page hp
    rw [hn] at hp
    obtain ⟨p, hp1⟩ := Int.eq_ofNat_of_zero_le (show (0 : Int) ≤ page - 1 by omega)
    have hpage : page = (p : Int) + 1 := by omega
    have hnp : n ≤ p := by omega
    rw [hpage, pageOf_pos docs p k hk]
    have hlen : docs.length ≤ p * k := le_trans hcover (Nat.mul_le_mul_right k hnp)
    rw [List.drop_eq_nil_of_le hlen, List.take_nil]
  · intro currentYear regex bikes q
    have hlen : (sortedMatches regex bikes q).length =
        (bikes.filter (matchesFilter regex (buildFilter q))).length :=
      (List.perm_insertionSort _ _).length_eq
    refine ⟨?_, ?_⟩
    · simp only [getBikes]
      cases hpage : pageOf (sortedMatches regex bikes q) (effectivePage q.page) bikesPerPage <;>
        rfl
    · intro view hview
      simp only [getBikes] at hview
      cases hpage : pageOf (sortedMatches regex bikes q) (effectivePage q.page) bikesPerPage with
      | none => simp [hpage] at hview
      | some found =>
        simp only [hpage, Option.some.injEq] at hview
        subst hview
        exact ⟨by rw [hlen], by rw [hlen]⟩

/-- Twenty records with limit 9 make three pages of 9, 9 and 2 records. -/
theorem pagination_consistent_witness :
    (pageOf (List.range 20) 3 9 = some [18, 19] ∧ totalPagesOf 20 9 = 3) ∧
    (List.range (totalPagesOf (List.range 20).length 9).toNat).flatMap
        (fun i => (pageOf (List.range 20) ((i : Int) + 1) 9).getD []) = List.range 20 :=
  ⟨by decide, (pagination_consistent (List.range 20) 9 (by decide)).1⟩

/-! ## C16 and C17: the sort order -/

theorem sortDocs_sorted (spec : SortSpec) (docs : List Bike) :
    (sortDocs spec docs).Sorted (sortLe spec) :=
  List.sorted_insertionSort (sortLe spec) docs

theorem sortedMatches_sorted (regex : String → String → Bool) (bikes : List Bike)
    (q : BikeQuery) (spec : SortSpec) (h : sortOf q.sortBy = spec)
    (r : Bike → Bike → Prop) (hr : ∀ a b, sortLe spec a b → r a b) :
    (sortedMatches regex bikes q).Sorted r := by
  unfold sortedMatches
  rw [h]
  exact List.Pairwise.imp (hr _ _) (sortDocs_sorted spec _)

theorem sortOf_default (sortBy : Option String)
    (h1 : sortBy ≠ some "price-low") (h2 : sortBy ≠ some "price-high")
    (h3 : sortBy ≠ some "year-new") (h4 : sortBy ≠ some "year-old") :
    sortOf sortBy = ⟨.createdAt, -1⟩ := by
  simp [sortOf, h1, h2, h3, h4]

theorem sortOption_eq (sortBy : Option String) : sortOption sortBy = sortOf sortBy := by
  unfold sortOption sortOf
  split
  · split <;> simp_all
  · rename_i h
    cases sortBy with
    | none => rfl
    | some s =>
      have hs : s = "" := by simpa [truthy] using h
      subst hs
      decide

/-- C16: `sortBy` selects price ascending for `price-low`, price descending
for `price-high`, year descending for `year-new`, year ascending for
`year-old`, and creation time descending for every other value, absent and
empty included, in `getBikes` and in `getAllBikes`; the sorted sequence of
`getBikes` is ordered accordingly and holds the same listings. -/
theorem sort_selection :
    (sortOf (some "price-low") = ⟨.price, 1⟩ ∧ sortOf (some "price-high") = ⟨.price, -1⟩ ∧
      sortOf (some "year-new") = ⟨.year, -1⟩ ∧ sortOf (some "year-old") = ⟨.year, 1⟩ ∧
      sortOf none = ⟨.createdAt, -1⟩ ∧ sortOf (some "") = ⟨.createdAt, -1⟩ ∧
      ∀ sortBy, sortBy ≠ some "price-low" → sortBy ≠ some "price-high" →
        sortBy ≠ some "year-new" → sortBy ≠ some "year-old" →
        sortOf sortBy = ⟨.createdAt, -1⟩) ∧
    (∀ sortBy, sortOption sortBy = sortOf sortBy) ∧
    (∀ (regex : String → String → Bool) (bikes : List Bike) (q : BikeQuery),
      (sortedMatches regex bikes q).Perm (bikes.filter (matchesFilter regex (buildFilter q))) ∧
      (q.sortBy = some "price-low" →
        (sortedMatches regex bikes q).Sorted (fun a b => a.price ≤ b.price)) ∧
      (q.sortBy = some "price-high" →
        (sortedMatches regex bikes q).Sorted (fun a b => b.price ≤ a.price)) ∧
      (q.sortBy = some "year-new" →
        (sortedMatches regex bikes q).Sorted (fun a b => b.year ≤ a.year)) ∧
      (q.sortBy = some "year-old" →
        (sortedMatches regex bikes q).Sorted (fun a b => a.year ≤ b.year)) ∧
      (q.sortBy ≠ some "price-low" → q.sortBy ≠ some "price-high" →
        q.sortBy ≠ some "year-new" → q.sortBy ≠ some "year-old" →
        (sortedMatches regex bikes q).Sorted (fun a b => b.createdAt ≤ a.createdAt))) := by
  refine ⟨⟨by decide, by decide, by decide, by decide, by decide, by decide, sortOf_default⟩,
    sortOption_eq, fun regex bikes q => ⟨List.perm_insertionSort _ _, ?_, ?_, ?_, ?_, ?_⟩⟩
  · intro h
    exact sortedMatches_sorted regex bikes q ⟨.price, 1⟩ (by rw [h]; decide) _
      (fun a b hab => by simpa [sortLe, sortKey] using hab)
  · intro h
    exact sortedMatches_sorted regex bikes q ⟨.price, -1⟩ (by rw [h]; decide) _
      (fun a b hab => by simpa [sortLe, sortKey] using hab)
  · intro h
    exact sortedMatches_sorted regex bikes q ⟨.year, -1⟩ (by rw [h]; decide) _
      (fun a b hab => by simpa [sortLe, sortKey] using hab)
  · intro h
    exact sortedMatches_sorted regex bikes q ⟨.year, 1⟩ (by rw [h]; decide) _
      (fun a b hab => by simpa [sortLe, sortKey] using hab)
  · intro h1 h2 h3 h4
    exact sortedMatches_sorted regex bikes q ⟨.createdAt, -1⟩ (sortOf_default _ h1 h2 h3 h4) _
      (fun a b hab => by simpa [sortLe, sortKey] using hab)

/-- Three listings by price and by creation time. -/
theorem sort_selection_witness :
    ((sortedMatches exactRegex
        [scenarioBike "a" "Yamaha" "Sport" 300 1, scenarioBike "b" "Honda" "Sport" 100 2,
          scenarioBike "c" "Honda" "Sport" 200 3]
        { emptyQuery with sortBy := some "price-low" }).map (·.id) = ["b", "c", "a"] ∧
      (sortedMatches exactRegex
        [scenarioBike "a" "Yamaha" "Sport" 300 1, scenarioBike "b" "Honda" "Sport" 100 2,
          scenarioBike "c" "Honda" "Sport" 200 3]
        { emptyQuery with sortBy := some "oldest" }).map (·.id) = ["c", "b", "a"]) ∧
    (sortedMatches exactRegex
        [scenarioBike "a" "Yamaha" "Sport" 300 1, scenarioBike "b" "Honda" "Sport" 100 2,
          scenarioBike "c" "Honda" "Sport" 200 3]
        { emptyQuery with sortBy := some "price-low" }).Sorted (fun a b => a.price ≤ b.price) :=
  ⟨by decide, (sort_selection.2.2 exactRegex _ _).2.1 rfl⟩

/-- C17 fails as stated: with `price-low` and two listings of equal price,
the order of the sort object lets the listing created earlier come first. -/
theorem tie_break_counterexample :
    ¬ ∀ (sortBy : Option String) (a b : Bike),
        sortKey (sortOf sortBy).field a = sortKey (sortOf sortBy).field b →
        b.createdAt < a.createdAt →
        ¬ sortLe (sortOf sortBy) b a := by
  intro h
  exact h (some "price-low") (scenarioBike "a" "Yamaha" "Sport" 100 2)
    (scenarioBike "b" "Honda" "Sport" 100 1) (by decide) (by decide) (by decide)

/-- C17 as amended: the sort object of `getBikes` has a single key. Two
listings equal on that key are each allowed before the other by the order,
whatever their creation times, so both sequences of the pair are sorted and
the order among them is left to the database; for `price-low`, `price-high`,
`year-new` and `year-old` the creation time plays no part in the order, and
only the default order ranks by creation time, descending. -/
theorem ties_left_to_database (sortBy : Option String) (a b : Bike)
    (hkey : sortKey (sortOf sortBy).field a = sortKey (sortOf sortBy).field b) :
    sortLe (sortOf sortBy) a b ∧ sortLe (sortOf sortBy) b a ∧
    [a, b].Sorted (sortLe (sortOf sortBy)) ∧ [b, a].Sorted (sortLe (sortOf sortBy)) ∧
    (sortBy = some "price-low" ∨ sortBy = some "price-high" ∨ sortBy = some "year-new" ∨
        sortBy = some "year-old" →
      ∀ (x y : Bike) (t u : Int),
        sortLe (sortOf sortBy) { x with createdAt := t } { y with createdAt := u } ↔
          sortLe (sortOf sortBy) x y) ∧
    (sortBy ≠ some "price-low" → sortBy ≠ some "price-high" →
      sortBy ≠ some "year-new" → sortBy ≠ some "year-old" →
      ∀ x y : Bike, sortLe (sortOf sortBy) x y ↔ y.createdAt ≤ x.createdAt) := by
  have hab : sortLe (sortOf sortBy) a b := by
    unfold sortLe
    split <;> omega
  have hba : sortLe (sortOf sortBy) b a := by
    unfold sortLe
    split <;> omega
  refine ⟨hab, hba, by simp [hab], by simp [hba], ?_, ?_⟩
  · rintro (h | h | h | h) x y t u <;> subst h <;> simp [sortOf, sortLe, sortKey]
  · intro h1 h2 h3 h4 x y
    rw [sortOf_default _ h1 h2 h3 h4]
    simp [sortLe, sortKey]

/-- Two listings of price 100 under `price-low`: each may come first, although
one was created later. -/
theorem ties_left_to_database_witness :
    sortLe (sortOf (some "price-low")) (scenarioBike "b" "Honda" "Sport" 100 1)
        (scenarioBike "a" "Yamaha" "Sport" 100 2) ∧
    sortLe (sortOf (some "price-low")) (scenarioBike "a" "Yamaha" "Sport" 100 2)
        (scenarioBike "b" "Honda" "Sport" 100 1) ∧
    [scenarioBike "b" "Honda" "Sport" 100 1, scenarioBike "a" "Yamaha" "Sport" 100 2].Sorted
        (sortLe (sortOf (some "price-low"))) ∧
    [scenarioBike "a" "Yamaha" "Sport" 100 2, scenarioBike "b" "Honda" "Sport" 100 1].Sorted
        (sortLe (sortOf (some "price-low"))) :=
  ⟨(ties_left_to_database (some "price-low") (scenarioBike "b" "Honda" "Sport" 100 1)
      (scenarioBike "a" "Yamaha" "Sport" 100 2) (by decide)).1,
   (ties_left_to_database (some "price-low") (scenarioBike "b" "Honda" "Sport" 100 1)
      (scenarioBike "a" "Yamaha" "Sport" 100 2) (by decide)).2.1,
   (ties_left_to_database (some "price-low") (scenarioBike "b" "Honda" "Sport" 100 1)
      (scenarioBike "a" "Yamaha" "Sport" 100 2) (by decide)).2.2.1,
   (ties_left_to_database (some "price-low") (scenarioBike "b" "Honda" "Sport" 100 1)
      (scenarioBike "a" "Yamaha" "Sport" 100 2) (by decide)).2.2.2.1⟩

/-! ## C18 and C19: parameters that are not ignored -/

theorem matchesFilter_search (regex : String → String → Bool) (f : BikeFilter) (b : Bike)
    (h : matchesFilter regex f b = true) : searchOk regex f.search b = true := by
  simp only [matchesFilter, Bool.and_eq_true] at h
  exact h.1.1.1.1.1.1.1.2

/-- C18 fails as stated: with `minPrice=abc` the filter built has a price
condition, unlike the filter built without the parameter. -/
theorem nonNumeric_counterexample :
    ¬ ∀ (q : BikeQuery) (s : String), jsParseInt (some s) = none →
        buildFilter { q with minPrice := some s } = buildFilter { q with minPrice := none } := by
  intro h
  have h1 := h emptyQuery "abc" (by decide)
  revert h1
  decide

/-- C18 as amended: a numeric parameter that is empty builds the same filter
as an absent one, while a parameter that is not empty and not numeric is kept
as the bound `NaN` of its range condition; mongoose refuses to cast that bound
for the `Number` path, the query is rejected and `getBikes` renders the error
page with status 500, whatever the listings and the other parameters. -/
theorem nonNumeric_bound_rejected :
    (∀ q : BikeQuery,
      buildFilter { q with minPrice := some "" } = buildFilter { q with minPrice := none } ∧
      buildFilter { q with maxPrice := some "" } = buildFilter { q with maxPrice := none } ∧
      buildFilter { q with minYear := some "" } = buildFilter { q with minYear := none } ∧
      buildFilter { q with maxYear := some "" } = buildFilter { q with maxYear := none }) ∧
    (∀ (q : BikeQuery) (s : String), s ≠ "" → jsParseInt (some s) = none →
      ((q.minPrice = some s → ∃ r, (buildFilter q).price = some r ∧ r.gte = some none) ∧
        (q.maxPrice = some s → ∃ r, (buildFilter q).price = some r ∧ r.lte = some none) ∧
        (q.minYear = some s → ∃ r, (buildFilter q).year = some r ∧ r.gte = some none) ∧
        (q.maxYear = some s → ∃ r, (buildFilter q).year = some r ∧ r.lte = some none)) ∧
      ((q.minPrice = some s ∨ q.maxPrice = some s ∨ q.minYear = some s ∨ q.maxYear = some s) →
        ∀ (currentYear : Int) (validRegex : String → Bool) (regex : String → String → Bool)
          (bikes : List Bike),
          filterRejected validRegex (buildFilter q) = true ∧
          getBikesPage currentYear validRegex regex bikes q = none)) := by
  refine ⟨fun q => ⟨?_, ?_, ?_, ?_⟩, fun q s hs hnan => ⟨⟨?_, ?_, ?_, ?_⟩, ?_⟩⟩
  · simp [buildFilter, buildRange, truthy]
  · simp [buildFilter, buildRange, truthy]
  · simp [buildFilter, buildRange, truthy]
  · simp [buildFilter, buildRange, truthy]
  · intro h
    simp [buildFilter, buildRange, truthy, h, hs, hnan]
  · intro h
    simp [buildFilter, buildRange, truthy, h, hs, hnan]
  · intro h
    simp [buildFilter, buildRange, truthy, h, hs, hnan]
  · intro h
    simp [buildFilter, buildRange, truthy, h, hs, hnan]
  · intro h currentYear validRegex regex bikes
    have hrej : filterRejected validRegex (buildFilter q) = true := by
      rcases h with h | h | h | h <;>
        simp [filterRejected, rangeRejected, buildFilter, buildRange, truthy, h, hs, hnan]
    exact ⟨hrej, by simp [getBikesPage, hrej]⟩

/-- With `minPrice=abc` the error page is rendered; with `minPrice=` the
filter is that of the request without the parameter and the page is rendered
with the available listing. -/
theorem nonNumeric_bound_rejected_witness :
    getBikesPage 2024 (fun _ => true) exactRegex [scenarioBike "a" "Yamaha" "Sport" 100 1]
        { emptyQuery with minPrice := some "abc" } = none ∧
    buildFilter { emptyQuery with minPrice := some "" } =
        buildFilter { emptyQuery with minPrice := none } ∧
    (getBikesPage 2024 (fun _ => true) exactRegex [scenarioBike "a" "Yamaha" "Sport" 100 1]
        { emptyQuery with minPrice := some "" }).map (·.totalBikes) = some 1 :=
  ⟨((nonNumeric_bound_rejected.2 { emptyQuery with minPrice := some "abc" } "abc" (by decide)
      (by decide)).2 (Or.inl rfl) 2024 (fun _ => true) exactRegex _).2,
   (nonNumeric_bound_rejected.1 emptyQuery).1, by decide⟩

/-- C19 fails as stated: a search of three spaces builds a filter with a
search condition, unlike the filter built without search. -/
theorem whitespace_search_counterexample :
    ¬ ∀ (q : BikeQuery) (s : String), s.toList.all Char.isWhitespace = true →
        (buildFilter { q with search := some s }).search = none ∧
        buildFilter { q with search := some s } = buildFilter { q with search := none } := by
  intro h
  have h1 := (h emptyQuery "   " (by decide)).1
  revert h1
  decide

/-- C19 as amended: only an absent or empty search is treated as absent; a
search that is not empty, white space included, is kept as the pattern of the
search condition, and a listing matches only if the pattern matches its
title, description, brand or model. -/
theorem search_kept_unless_empty :
    (∀ q : BikeQuery,
      buildFilter { q with search := some "" } = buildFilter { q with search := none } ∧
      (buildFilter { q with search := none }).search = none) ∧
    (∀ (q : BikeQuery) (s : String), q.search = some s → s ≠ "" →
      (buildFilter q).search = some s ∧
      ∀ (regex : String → String → Bool) (b : Bike),
        matchesFilter regex (buildFilter q) b = true →
          (regex s b.title = true ∨ regex s b.description = true ∨ regex s b.brand = true ∨
            regex s b.model = true)) := by
  refine ⟨fun q => ⟨?_, ?_⟩, fun q s hq hs => ⟨?_, fun regex b hm => ?_⟩⟩
  · simp [buildFilter, whenTruthy, truthy]
  · simp [buildFilter, whenTruthy, truthy]
  · simp [buildFilter, whenTruthy, truthy, hq, hs]
  · have h := matchesFilter_search regex _ b hm
    simp only [buildFilter] at h
    exact (searchOk_whenTruthy regex q.search b).1 h s hq hs

/-- A search of three spaces is kept as a pattern and excludes a listing that
it does not match. -/
theorem search_kept_unless_empty_witness :
    (buildFilter { emptyQuery with search := some "   " }).search = some "   " ∧
    matchesFilter exactRegex (buildFilter { emptyQuery with search := some "   " })
        (scenarioBike "a" "Yamaha" "Sport" 100 1) = false ∧
    matchesFilter exactRegex (buildFilter { emptyQuery with search := some "" })
        (scenarioBike "a" "Yamaha" "Sport" 100 1) = true :=
  ⟨(search_kept_unless_empty.2 { emptyQuery with search := some "   " } "   " rfl
      (by decide)).1, by decide, by decide⟩

/-! ## C20: the effective page -/

/-- C20 fails as stated: the page parameter `-2` gives the page -2 and the
skip count -27. -/
theorem effectivePage_counterexample :
    ¬ ∀ page : Option String,
        1 ≤ effectivePage page ∧ 0 ≤ skipOf (effectivePage page) bikesPerPage := by
  intro h
  have h1 := (h (some "-2")).1
  revert h1
  decide

/-- C20 as amended: the effective page of `getBikes` and `getAllBikes` is 1
when the parameter is absent, not a number or zero, and the number read
otherwise; it is at least 1, and the skip count of `getBikes` is not negative,
exactly when the number read is not negative. -/
theorem effectivePage_spec (page : Option String) :
    (page = none → effectivePage page = 1) ∧
    (jsParseInt page = none → effectivePage page = 1) ∧
    (jsParseInt page = some 0 → effectivePage page = 1) ∧
    (∀ n, jsParseInt page = some n → n ≠ 0 → effectivePage page = n) ∧
    (1 ≤ effectivePage page ↔ ¬ ∃ n, jsParseInt page = some n ∧ n < 0) ∧
    (0 ≤ skipOf (effectivePage page) bikesPerPage ↔
      ¬ ∃ n, jsParseInt page = some n ∧ n < 0) ∧
    (∀ q : BikeQuery, q.page = page → (getAllBikesPaging q).1 = effectivePage page ∧
      (getAllBikesPaging q).2.2 =
        (effectivePage page - 1) * (getAllBikesPaging q).2.1) := by
  refine ⟨?_, ?_, ?_, ?_, ?_, ?_, ?_⟩
  · rintro rfl
    rfl
  · intro h
    simp [effectivePage, h]
  · intro h
    simp [effectivePage, h]
  · intro n h hn
    simp [effectivePage, h, hn]
  · unfold effectivePage
    cases hp : jsParseInt page with
    | none => simp
    | some n =>
      by_cases hn : n = 0
      · simp [hn]
      · simp only [hn, if_false, Option.some.injEq, exists_eq_left', not_lt]
        omega
  · unfold effectivePage skipOf bikesPerPage
    cases hp : jsParseInt page with
    | none => simp
    | some n =>
      by_cases hn : n = 0
      · simp [hn]
      · simp only [hn, if_false, Option.some.injEq, exists_eq_left', not_lt]
        omega
  · rintro q rfl
    exact ⟨rfl, rfl⟩

/-- The pages read from `3`, `abc`, `0` and `-2`. -/
theorem effectivePage_spec_witness :
    effectivePage (some "3") = 3 ∧ effectivePage (some "abc") = 1 ∧
    effectivePage (some "0") = 1 ∧ effectivePage (some "-2") = -2 ∧
    skipOf (effectivePage (some "-2")) bikesPerPage = -27 :=
  ⟨(effectivePage_spec (some "3")).2.2.2.1 3 (by decide) (by decide),
   (effectivePage_spec (some "abc")).2.1 (by decide),
   (effectivePage_spec (some "0")).2.2.1 (by decide),
   (effectivePage_spec (some "-2")).2.2.2.1 (-2) (by decide) (by decide), by decide⟩

/-! ## C21 and C22: facets and stats -/

theorem getBikes_some (currentYear : Int) (regex : String → String → Bool)
    (bikes : List Bike) (q : BikeQuery) (view : BikesView)
    (h : getBikes currentYear regex bikes q = some view) :
    view.brands = distinct (·.brand) bikes ∧ view.categories = distinct (·.category) bikes ∧
    view.locations = distinct (·.location) bikes ∧
    view.fuelTypes = distinct (·.fuelType) bikes ∧
    view.conditions = distinct (·.condition) bikes ∧
    view.stats = statsOf currentYear bikes := by
  simp only [getBikes] at h
  cases hpage : pageOf (sortedMatches regex bikes q) (effectivePage q.page) bikesPerPage with
  | none => simp [hpage] at h
  | some found =>
    simp only [hpage, Option.some.injEq] at h
    subst h
    exact ⟨rfl, rfl, rfl, rfl, rfl, rfl⟩

theorem getBikes_isSome (currentYear : Int) (regex : String → String → Bool)
    (bikes : List Bike) (q : BikeQuery)
    (h : ¬ ∃ n, jsParseInt q.page = some n ∧ n < 0) :
    ∃ view, getBikes currentYear regex bikes q = some view := by
  have hpage : 1 ≤ effectivePage q.page := by
    unfold effectivePage
    cases hp : jsParseInt q.page with
    | none => simp
    | some n =>
      have hn : ¬ n < 0 := fun hlt => h ⟨n, hp, hlt⟩
      by_cases h0 : n = 0
      · simp [h0]
      · simp only [h0, if_false]
        omega
  have hskip : ¬ skipOf (effectivePage q.page) bikesPerPage < 0 := by
    unfold skipOf bikesPerPage
    omega
  have h9 : ¬ bikesPerPage = 0 := by decide
  simp only [getBikes, pageOf, skipLimit, if_neg hskip, if_neg h9]
  exact ⟨_, rfl⟩

theorem getBikes_none_of_negative (currentYear : Int) (regex : String → String → Bool)
    (bikes : List Bike) (q : BikeQuery) (n : Int) (hp : jsParseInt q.page = some n)
    (hn : n < 0) : getBikes currentYear regex bikes q = none := by
  have h0 : n ≠ 0 := by omega
  have hpage : effectivePage q.page = n := by simp [effectivePage, hp, h0]
  have hskip : skipOf n bikesPerPage < 0 := by
    unfold skipOf bikesPerPage
    omega
  simp [getBikes, pageOf, skipLimit, hpage, hskip]

theorem rangeRejected_buildRange (min max : Option String) :
    rangeRejected (buildRange min max) = false ↔
      (∀ s, min = some s → s ≠ "" → ∃ n, jsParseInt (some s) = some n) ∧
      (∀ s, max = some s → s ≠ "" → ∃ n, jsParseInt (some s) = some n) := by
  have hnone : ∀ x : Option String, (∀ s, x = some s → s = "") →
      ∀ (P : String → Prop) (s : String), x = some s → s ≠ "" → P s :=
    fun x hx P s h1 h2 => absurd (hx s h1) h2
  have hsome : ∀ (t : String) (P : String → Prop),
      (∀ s, some t = some s → s ≠ "" → P s) ↔ (t ≠ "" → P t) := by
    intro t P
    constructor
    · intro h ht
      exact h t rfl ht
    · intro h s hs hne
      cases hs
      exact h hne
  rcases truthy_cases min with ⟨hmin, hminx⟩ | ⟨a, rfl, ha, hmin⟩ <;>
    rcases truthy_cases max with ⟨hmax, hmaxx⟩ | ⟨b, rfl, hb, hmax⟩
  · simp only [buildRange, hmin, hmax, rangeRejected, Bool.or_self, Bool.false_eq_true,
      if_false, true_iff]
    exact ⟨hnone min hminx _, hnone max hmaxx _⟩
  · rw [hsome b]
    simp only [buildRange, hmin, hmax, Bool.false_or, if_true, Bool.false_eq_true, if_false]
    cases hp : jsParseInt (some b) with
    | none => simp [rangeRejected, hb]
    | some n =>
      simp only [rangeRejected, Option.some.injEq, exists_eq', implies_true, and_true]
      exact iff_of_true (by simp) (hnone min hminx _)
  · rw [hsome a]
    simp only [buildRange, hmin, hmax, Bool.or_false, if_true, Bool.false_eq_true, if_false]
    cases hp : jsParseInt (some a) with
    | none => simp [rangeRejected, ha]
    | some n =>
      simp only [rangeRejected, Option.some.injEq, exists_eq', implies_true, true_and]
      exact iff_of_true (by simp) (hnone max hmaxx _)
  · rw [hsome a, hsome b]
    simp only [buildRange, hmin, hmax, Bool.or_self, if_true]
    cases hp : jsParseInt (some a) <;> cases hq : jsParseInt (some b) <;>
      simp [rangeRejected, ha, hb]

theorem filterRejected_buildFilter (validRegex : String → Bool) (q : BikeQuery) :
    filterRejected validRegex (buildFilter q) = false ↔
      (∀ s, q.minPrice = some s → s ≠ "" → ∃ n, jsParseInt (some s) = some n) ∧
      (∀ s, q.maxPrice = some s → s ≠ "" → ∃ n, jsParseInt (some s) = some n) ∧
      (∀ s, q.minYear = some s → s ≠ "" → ∃ n, jsParseInt (some s) = some n) ∧
      (∀ s, q.maxYear = some s → s ≠ "" → ∃ n, jsParseInt (some s) = some n) ∧
      (∀ s, q.search = some s → s ≠ "" → validRegex s = true) := by
  have hsearch : (match whenTruthy q.search with
      | some pattern => !validRegex pattern
      | none => false) = false ↔ ∀ s, q.search = some s → s ≠ "" → validRegex s = true := by
    rcases truthy_cases q.search with ⟨ht, hx⟩ | ⟨s, hq, hs, ht⟩
    · simp only [whenTruthy, ht, Bool.false_eq_true, if_false, true_iff]
      intro s h1 h2
      exact absurd (hx s h1) h2
    · rw [hq] at ht
      simp only [whenTruthy, hq, ht, if_true, Bool.not_eq_false']
      constructor
      · intro h t ht1 _
        cases ht1
        exact h
      · intro h
        exact h s rfl hs
  simp only [filterRejected, buildFilter, Bool.or_eq_false_iff, rangeRejected_buildRange,
    hsearch]
  tauto

theorem getBikesPage_some (currentYear : Int) (validRegex : String → Bool)
    (regex : String → String → Bool) (bikes : List Bike) (q : BikeQuery) (view : BikesView)
    (h : getBikesPage currentYear validRegex regex bikes q = some view) :
    filterRejected validRegex (buildFilter q) = false ∧
      getBikes currentYear regex bikes q = some view := by
  unfold getBikesPage at h
  split at h
  · cases h
  · rename_i hrej
    exact ⟨by simpa using hrej, h⟩

/-- C21: for a fixed pool of listings and a fixed current year, the facet
lists and the stats that `getBikes` renders do not depend on the query
parameters: any two requests that render the page show the same brands,
categories, locations, fuel types, conditions and stats, those of the pool of
available listings. The page is rendered exactly when the database accepts the
query: each of minPrice, maxPrice, minYear and maxYear that is not empty reads
as a number, a search that is not empty is a regular expression, and the page
parameter is not negative; otherwise the error page is rendered and no facet
is computed. -/
theorem facets_independent (currentYear : Int) (validRegex : String → Bool)
    (regex : String → String → Bool) (bikes : List Bike) :
    (∀ q : BikeQuery,
      (∃ view, getBikesPage currentYear validRegex regex bikes q = some view) ↔
        ((∀ s, q.minPrice = some s → s ≠ "" → ∃ n, jsParseInt (some s) = some n) ∧
          (∀ s, q.maxPrice = some s → s ≠ "" → ∃ n, jsParseInt (some s) = some n) ∧
          (∀ s, q.minYear = some s → s ≠ "" → ∃ n, jsParseInt (some s) = some n) ∧
          (∀ s, q.maxYear = some s → s ≠ "" → ∃ n, jsParseInt (some s) = some n) ∧
          (∀ s, q.search = some s → s ≠ "" → validRegex s = true) ∧
          ¬ ∃ n, jsParseInt q.page = some n ∧ n < 0)) ∧
    (∀ (q1 q2 : BikeQuery) (v1 v2 : BikesView),
      getBikesPage currentYear validRegex regex bikes q1 = some v1 →
      getBikesPage currentYear validRegex regex bikes q2 = some v2 →
      v1.brands = v2.brands ∧ v1.categories = v2.categories ∧ v1.locations = v2.locations ∧
      v1.fuelTypes = v2.fuelTypes ∧ v1.conditions = v2.conditions ∧ v1.stats = v2.stats) ∧
    (∀ (q : BikeQuery) (v : BikesView),
      getBikesPage currentYear validRegex regex bikes q = some v →
      v.brands = distinct (·.brand) bikes ∧ v.categories = distinct (·.category) bikes ∧
      v.locations = distinct (·.location) bikes ∧ v.fuelTypes = distinct (·.fuelType) bikes ∧
      v.conditions = distinct (·.condition) bikes ∧ v.stats = statsOf currentYear bikes) := by
  refine ⟨fun q => ⟨?_, ?_⟩, ?_, ?_⟩
  · rintro ⟨view, hview⟩
    obtain ⟨hrej, hget⟩ := getBikesPage_some currentYear validRegex regex bikes q view hview
    obtain ⟨r1, r2, r3, r4, r5⟩ := (filterRejected_buildFilter validRegex q).1 hrej
    refine ⟨r1, r2, r3, r4, r5, ?_⟩
    rintro ⟨n, hp, hn⟩
    rw [getBikes_none_of_negative currentYear regex bikes q n hp hn] at hget
    cases hget
  · rintro ⟨r1, r2, r3, r4, r5, hpage⟩
    have hrej := (filterRejected_buildFilter validRegex q).2 ⟨r1, r2, r3, r4, r5⟩
    obtain ⟨view, hview⟩ := getBikes_isSome currentYear regex bikes q hpage
    exact ⟨view, by simp [getBikesPage, hrej, hview]⟩
  · intro q1 q2 v1 v2 h1 h2
    obtain ⟨a1, a2, a3, a4, a5, a6⟩ := getBikes_some currentYear regex bikes q1 v1
      (getBikesPage_some currentYear validRegex regex bikes q1 v1 h1).2
    obtain ⟨b1, b2, b3, b4, b5, b6⟩ := getBikes_some currentYear regex bikes q2 v2
      (getBikesPage_some currentYear validRegex regex bikes q2 v2 h2).2
    exact ⟨a1.trans b1.symm, a2.trans b2.symm, a3.trans b3.symm, a4.trans b4.symm,
      a5.trans b5.symm, a6.trans b6.symm⟩
  · intro q v h
    exact getBikes_some currentYear regex bikes q v
      (getBikesPage_some currentYear validRegex regex bikes q v h).2

/-- Scenario C: `minPrice=5000, maxPrice=3000` matches no listing, and the
facets and stats are those of the request without parameters; a sold listing
is in neither; with `minPrice=abc`, with a search that is not a regular
expression and with the page -2 the error page is rendered. -/
theorem facets_independent_witness :
    (∃ v1 v2 : BikesView,
      getBikesPage 2024 (fun _ => true) exactRegex
          [scenarioBike "a" "Yamaha" "Sport" 4000 1, soldBike "s" "Ducati" "Sport" 1000 1990,
            scenarioBike "b" "Honda" "Cruiser" 6000 2]
          { emptyQuery with minPrice := some "5000", maxPrice := some "3000" } = some v1 ∧
      getBikesPage 2024 (fun _ => true) exactRegex
          [scenarioBike "a" "Yamaha" "Sport" 4000 1, soldBike "s" "Ducati" "Sport" 1000 1990,
            scenarioBike "b" "Honda" "Cruiser" 6000 2]
          emptyQuery = some v2 ∧
      v1.totalBikes = 0 ∧ v1.bikes = [] ∧ v1.totalPages = 0 ∧ v2.totalBikes = 2 ∧
      v1.brands = ["Yamaha", "Honda"] ∧ v1.stats = ⟨4000, 6000, 2020, 2020⟩ ∧
      v2.brands = ["Yamaha", "Honda"] ∧ v2.stats = ⟨4000, 6000, 2020, 2020⟩) ∧
    getBikesPage 2024 (fun _ => true) exactRegex
        [scenarioBike "a" "Yamaha" "Sport" 4000 1, soldBike "s" "Ducati" "Sport" 1000 1990,
          scenarioBike "b" "Honda" "Cruiser" 6000 2]
        { emptyQuery with minPrice := some "abc" } = none ∧
    getBikesPage 2024 plainPattern exactRegex [scenarioBike "a" "Yamaha" "Sport" 4000 1]
        { emptyQuery with search := some "(" } = none ∧
    (getBikesPage 2024 plainPattern exactRegex [scenarioBike "a" "Yamaha" "Sport" 4000 1]
        { emptyQuery with search := some "Yamaha" }).map (·.totalBikes) = some 1 ∧
    getBikesPage 2024 (fun _ => true) exactRegex [scenarioBike "a" "Yamaha" "Sport" 4000 1]
        { emptyQuery with page := some "-2" } = none ∧
    ∀ (v1 v2 : BikesView),
      getBikesPage 2024 (fun _ => true) exactRegex
          [scenarioBike "a" "Yamaha" "Sport" 4000 1, soldBike "s" "Ducati" "Sport" 1000 1990,
            scenarioBike "b" "Honda" "Cruiser" 6000 2]
          { emptyQuery with minPrice := some "5000", maxPrice := some "3000" } = some v1 →
      getBikesPage 2024 (fun _ => true) exactRegex
          [scenarioBike "a" "Yamaha" "Sport" 4000 1, soldBike "s" "Ducati" "Sport" 1000 1990,
            scenarioBike "b" "Honda" "Cruiser" 6000 2]
          emptyQuery = some v2 →
      v1.brands = v2.brands ∧ v1.categories = v2.categories ∧ v1.locations = v2.locations ∧
      v1.fuelTypes = v2.fuelTypes ∧ v1.conditions = v2.conditions ∧ v1.stats = v2.stats :=
  ⟨⟨_, _, rfl, rfl, by decide⟩, by decide, by decide, by decide, by decide,
   (facets_independent 2024 (fun _ => true) exactRegex
      [scenarioBike "a" "Yamaha" "Sport" 4000 1, soldBike "s" "Ducati" "Sport" 1000 1990,
        scenarioBike "b" "Honda" "Cruiser" 6000 2]).2.1 _ _⟩

theorem foldl_min_le (l : List Int) :
    ∀ x : Int, l.foldl min x ≤ x ∧ (∀ y ∈ l, l.foldl min x ≤ y) ∧
      (l.foldl min x = x ∨ l.foldl min x ∈ l) := by
  induction l with
  | nil => intro x; simp
  | cons a l ih =>
    intro x
    obtain ⟨h1, h2, h3⟩ := ih (min x a)
    simp only [List.foldl_cons, List.mem_cons]
    refine ⟨le_trans h1 (min_le_left _ _), ?_, ?_⟩
    · rintro y (rfl | hy)
      · exact le_trans h1 (min_le_right _ _)
      · exact h2 y hy
    · rcases h3 with h3 | h3
      · rcases min_choice x a with hm | hm
        · exact Or.inl (h3.trans hm)
        · exact Or.inr (Or.inl (h3.trans hm))
      · exact Or.inr (Or.inr h3)

theorem foldl_max_ge (l : List Int) :
    ∀ x : Int, x ≤ l.foldl max x ∧ (∀ y ∈ l, y ≤ l.foldl max x) ∧
      (l.foldl max x = x ∨ l.foldl max x ∈ l) := by
  induction l with
  | nil => intro x; simp
  | cons a l ih =>
    intro x
    obtain ⟨h1, h2, h3⟩ := ih (max x a)
    simp only [List.foldl_cons, List.mem_cons]
    refine ⟨le_trans (le_max_left _ _) h1, ?_, ?_⟩
    · rintro y (rfl | hy)
      · exact le_trans (le_max_right _ _) h1
      · exact h2 y hy
    · rcases h3 with h3 | h3
      · rcases max_choice x a with hm | hm
        · exact Or.inl (h3.trans hm)
        · exact Or.inr (Or.inl (h3.trans hm))
      · exact Or.inr (Or.inr h3)

theorem foldl_min_attained (f : Bike → Int) (b : Bike) (bs : List Bike) :
    (∀ c ∈ b :: bs, (bs.map f).foldl min (f b) ≤ f c) ∧
      ∃ c ∈ b :: bs, f c = (bs.map f).foldl min (f b) := by
  obtain ⟨h1, h2, h3⟩ := foldl_min_le (bs.map f) (f b)
  refine ⟨?_, ?_⟩
  · intro c hc
    rcases List.mem_cons.1 hc with rfl | hc
    · exact h1
    · exact h2 _ (List.mem_map_of_mem f hc)
  · rcases h3 with h3 | h3
    · exact ⟨b, List.mem_cons_self _ _, h3.symm⟩
    · obtain ⟨c, hc, hfc⟩ := List.mem_map.1 h3
      exact ⟨c, List.mem_cons_of_mem _ hc, hfc⟩

theorem foldl_max_attained (f : Bike → Int) (b : Bike) (bs : List Bike) :
    (∀ c ∈ b :: bs, f c ≤ (bs.map f).foldl max (f b)) ∧
      ∃ c ∈ b :: bs, f c = (bs.map f).foldl max (f b) := by
  obtain ⟨h1, h2, h3⟩ := foldl_max_ge (bs.map f) (f b)
  refine ⟨?_, ?_⟩
  · intro c hc
    rcases List.mem_cons.1 hc with rfl | hc
    · exact h1
    · exact h2 _ (List.mem_map_of_mem f hc)
  · rcases h3 with h3 | h3
    · exact ⟨b, List.mem_cons_self _ _, h3.symm⟩
    · obtain ⟨c, hc, hfc⟩ := List.mem_map.1 h3
      exact ⟨c, List.mem_cons_of_mem _ hc, hfc⟩

theorem mem_availableBikes (bikes : List Bike) (b : Bike) :
    b ∈ availableBikes bikes ↔ b ∈ bikes ∧ b.availability = "available" := by
  simp [availableBikes, List.mem_filter]

/-- C22: when no listing has the availability `available` the stats of
`getBikes` are exactly `{0, 1000000, 2000, current year}`; otherwise each of
minPrice, maxPrice, minYear, maxYear is the minimum or maximum of the price or
of the year over the listings whose availability is `available`: it bounds
every such listing and is the value of one, so that `minPrice ≤ maxPrice` and
`minYear ≤ maxYear`. These are the stats of every request that renders the
page. -/
theorem stats_spec (currentYear : Int) (bikes : List Bike) :
    ((∀ b ∈ bikes, b.availability ≠ "available") →
      statsOf currentYear bikes = ⟨0, 1000000, 2000, currentYear⟩) ∧
    ((∃ b ∈ bikes, b.availability = "available") →
      (∀ b ∈ bikes, b.availability = "available" →
        (statsOf currentYear bikes).minPrice ≤ b.price ∧
        b.price ≤ (statsOf currentYear bikes).maxPrice ∧
        (statsOf currentYear bikes).minYear ≤ b.year ∧
        b.year ≤ (statsOf currentYear bikes).maxYear) ∧
      (∃ b ∈ bikes, b.availability = "available" ∧
        b.price = (statsOf currentYear bikes).minPrice) ∧
      (∃ b ∈ bikes, b.availability = "available" ∧
        b.price = (statsOf currentYear bikes).maxPrice) ∧
      (∃ b ∈ bikes, b.availability = "available" ∧
        b.year = (statsOf currentYear bikes).minYear) ∧
      (∃ b ∈ bikes, b.availability = "available" ∧
        b.year = (statsOf currentYear bikes).maxYear) ∧
      (statsOf currentYear bikes).minPrice ≤ (statsOf currentYear bikes).maxPrice ∧
      (statsOf currentYear bikes).minYear ≤ (statsOf currentYear bikes).maxYear) ∧
    (∀ (validRegex : String → Bool) (regex : String → String → Bool) (q : BikeQuery)
      (view : BikesView),
      getBikesPage currentYear validRegex regex bikes q = some view →
        view.stats = statsOf currentYear bikes) := by
  refine ⟨fun h => ?_, fun h => ?_, fun validRegex regex q view hv =>
    (getBikes_some currentYear regex bikes q view
      (getBikesPage_some currentYear validRegex regex bikes q view hv).2).2.2.2.2.2⟩
  · have hpool : availableBikes bikes = [] := by
      rw [List.eq_nil_iff_forall_not_mem]
      intro b hb
      exact h b ((mem_availableBikes bikes b).1 hb).1 ((mem_availableBikes bikes b).1 hb).2
    simp [statsOf, hpool]
  · have hmem := mem_availableBikes bikes
    unfold statsOf
    cases hpool : availableBikes bikes with
    | nil =>
      obtain ⟨b, hb, hav⟩ := h
      have := (hmem b).2 ⟨hb, hav⟩
      rw [hpool] at this
      cases this
    | cons b bs =>
      rw [hpool] at hmem
      obtain ⟨p1, c1, hc1, e1⟩ := foldl_min_attained (·.price) b bs
      obtain ⟨p3, c2, hc2, e2⟩ := foldl_max_attained (·.price) b bs
      obtain ⟨y1, c3, hc3, e3⟩ := foldl_min_attained (·.year) b bs
      obtain ⟨y3, c4, hc4, e4⟩ := foldl_max_attained (·.year) b bs
      refine ⟨fun c hc hav => ?_, ⟨c1, ((hmem c1).1 hc1).1, ((hmem c1).1 hc1).2, e1⟩,
        ⟨c2, ((hmem c2).1 hc2).1, ((hmem c2).1 hc2).2, e2⟩,
        ⟨c3, ((hmem c3).1 hc3).1, ((hmem c3).1 hc3).2, e3⟩,
        ⟨c4, ((hmem c4).1 hc4).1, ((hmem c4).1 hc4).2, e4⟩, ?_, ?_⟩
      · have hc1 := (hmem c).2 ⟨hc, hav⟩
        exact ⟨p1 c hc1, p3 c hc1, y1 c hc1, y3 c hc1⟩
      · exact le_trans (p1 b (List.mem_cons_self _ _)) (p3 b (List.mem_cons_self _ _))
      · exact le_trans (y1 b (List.mem_cons_self _ _)) (y3 b (List.mem_cons_self _ _))

/-- A sold listing of price 1000 and year 1990 between two available listings
of price 4000 and 6000: the stats are those of the two available listings, and
a pool with the sold listing alone gives the defaults of 2024. -/
theorem stats_spec_witness :
    statsOf 2024 [soldBike "s" "Ducati" "Sport" 1000 1990] = ⟨0, 1000000, 2000, 2024⟩ ∧
    statsOf 2024
        [scenarioBike "a" "Yamaha" "Sport" 4000 1, soldBike "s" "Ducati" "Sport" 1000 1990,
          scenarioBike "b" "Honda" "Cruiser" 6000 2] =
      ⟨4000, 6000, 2020, 2020⟩ ∧
    (∃ b ∈ [scenarioBike "a" "Yamaha" "Sport" 4000 1, soldBike "s" "Ducati" "Sport" 1000 1990,
        scenarioBike "b" "Honda" "Cruiser" 6000 2],
      b.availability = "available" ∧
      b.price = (statsOf 2024
        [scenarioBike "a" "Yamaha" "Sport" 4000 1, soldBike "s" "Ducati" "Sport" 1000 1990,
          scenarioBike "b" "Honda" "Cruiser" 6000 2]).minPrice) :=
  ⟨(stats_spec 2024 [soldBike "s" "Ducati" "Sport" 1000 1990]).1 (by decide), by decide,
   ((stats_spec 2024
      [scenarioBike "a" "Yamaha" "Sport" 4000 1, soldBike "s" "Ducati" "Sport" 1000 1990,
        scenarioBike "b" "Honda" "Cruiser" 6000 2]).2.1
      ⟨scenarioBike "a" "Yamaha" "Sport" 4000 1, by decide, by decide⟩).2.1⟩

/-! ## C23: a service that is not found -/

/-- C23 fails as stated: for the id `abc`, which resolves to no service,
`getServiceAvailability` does not fail with `Service not found`: the id is not
an ObjectId and the function throws the cast error of the query. -/
theorem malformed_id_counterexample :
    ¬ ∀ (fuel : Nat) (services : List Service) (bookings : List Booking) (id date : String),
        findService services id = none →
        getServiceAvailability fuel services bookings id date =
          some (.error "Service not found") := by
  intro h
  have h1 := h 0 [] [] "abc" "2024-01-01" (by decide)
  revert h1
  decide

/-- C23 as amended: when the id resolves to no service, `getServiceAvailability`
fails and returns no list: with `Service not found` when the id is a well
formed ObjectId, and with the cast error of the query when it is not; the
availability route, given a well formed id and a date, answers 404 with
`Service not found`, and it answers 400 when the id is not well formed or the
date parameter is missing or empty, without computing slots. No fuel is
needed. -/
theorem service_not_found (fuel : Nat) (services : List Service) (bookings : List Booking)
    (id : String) :
    (findService services id = none →
      ∀ date : String,
        (isMongoId id = true →
          getServiceAvailability fuel services bookings id date =
            some (.error "Service not found")) ∧
        (isMongoId id = false →
          getServiceAvailability fuel services bookings id date = some (.error castError)) ∧
        (∃ err, getServiceAvailability fuel services bookings id date = some (.error err)) ∧
        (isMongoId id = true → date ≠ "" →
          availabilityRoute fuel services bookings id (some date) =
            some ⟨404, false, .message "Service not found"⟩)) ∧
    (isMongoId id = false →
      ∀ date : Option String,
        availabilityRoute fuel services bookings id date =
          some ⟨400, false, .errors ["Invalid service ID"]⟩) ∧
    (isMongoId id = true →
      availabilityRoute fuel services bookings id none =
        some ⟨400, false, .message "Date parameter is required"⟩ ∧
      availabilityRoute fuel services bookings id (some "") =
        some ⟨400, false, .message "Date parameter is required"⟩) := by
  refine ⟨fun hfind date => ⟨fun hid => ?_, fun hid => ?_, ?_, fun hid hdate => ?_⟩,
    fun hid date => ?_, fun hid => ⟨?_, ?_⟩⟩
  · simp [getServiceAvailability, hid, hfind]
  · simp [getServiceAvailability, hid]
  · cases hid : isMongoId id
    · exact ⟨castError, by simp [getServiceAvailability, hid]⟩
    · exact ⟨"Service not found", by simp [getServiceAvailability, hid, hfind]⟩
  · simp [availabilityRoute, hid, hdate, hfind]
  · simp [availabilityRoute, hid]
  · simp [availabilityRoute, hid]
  · simp [availabilityRoute, hid]

/-- Without any service, the scenario id is not found and the id `abc` is
rejected by the cast; without a date the route answers 400. -/
theorem service_not_found_witness :
    getServiceAvailability 0 [] [] scenarioId "2024-01-01" =
        some (.error "Service not found") ∧
    getServiceAvailability 0 [storedService] [] "abc" "2024-01-01" =
        some (.error castError) ∧
    availabilityRoute 0 [] [] scenarioId (some "2024-01-01") =
        some ⟨404, false, .message "Service not found"⟩ ∧
    availabilityRoute 0 [storedService] [] scenarioId none =
        some ⟨400, false, .message "Date parameter is required"⟩ :=
  ⟨(((service_not_found 0 [] [] scenarioId).1 rfl "2024-01-01").1) (by decide),
   (((service_not_found 0 [storedService] [] "abc").1 (by decide) "2024-01-01").2.1)
     (by decide),
   ((service_not_found 0 [] [] scenarioId).1 rfl "2024-01-01").2.2.2 (by decide) (by decide),
   ((service_not_found 0 [storedService] [] scenarioId).2.2 (by decide)).1⟩

/-! ## C27: the slot loop ends -/

theorem slot_count_toNat (a b d : Int) (hd : 0 < d) (k : Nat) :
    a + k * d < b ↔ k < ((b - a + d - 1) / d).toNat := by
  rw [Int.lt_toNat, Int.lt_iff_add_one_le (a := (k : Int)), Int.le_ediv_iff_mul_le hd]
  constructor <;> intro h <;> nlinarith

theorem slotDurationOf_pos (service : Service)
    (h : service.slotDuration = none ∨ ∃ d, service.slotDuration = some d ∧ 0 < d) :
    0 < slotDurationOf service := by
  unfold slotDurationOf
  rcases h with h | ⟨d, h, hd⟩
  · rw [h]
    decide
  · rw [h]
    have : d ≠ 0 := by omega
    simp [this, hd]

/-- C27: when the slot duration is greater than 0 or unset (then 60), the
slot loop of `getServiceAvailability` ends for every schedule entry and every
date: it runs `n` iterations, one per slot, where `n` is `ceil((end - start) /
(slotDuration * 60000))` when both dates are valid and `start < end`, and 0
otherwise, also when a time does not parse; fuel `n` is enough. -/
theorem slot_loop_terminates (service : Service) (day : DayAvailability) (date : String)
    (hd : service.slotDuration = none ∨ ∃ d, service.slotDuration = some d ∧ 0 < d) :
    ∃ n : Nat,
      (∀ fuel, n ≤ fuel →
        ∃ slots, candidateSlots fuel service day date = some slots ∧ slots.length = n) ∧
      (∀ s e : Int, newDateTime date (strOr day.startTime "09:00") = some s →
        newDateTime date (strOr day.endTime "17:00") = some e → s < e →
        (n : Int) = (e - s + slotDurationOf service * msPerMinute - 1) /
          (slotDurationOf service * msPerMinute)) ∧
      (∀ s e : Int, newDateTime date (strOr day.startTime "09:00") = some s →
        newDateTime date (strOr day.endTime "17:00") = some e → e ≤ s → n = 0) ∧
      (newDateTime date (strOr day.startTime "09:00") = none ∨
        newDateTime date (strOr day.endTime "17:00") = none → n = 0) := by
  have hpos := slotDurationOf_pos service hd
  have hstep : 0 < slotDurationOf service * msPerMinute := mul_pos hpos (by decide)
  cases hs : newDateTime date (strOr day.startTime "09:00") with
  | none =>
    refine ⟨0, fun fuel _ => ⟨[], ?_, rfl⟩, ?_, ?_, fun _ => rfl⟩
    · simp [candidateSlots, hs, generateTimeSlots]
    · intro s e h
      cases h
    · intro s e h
      cases h
  | some s =>
    cases he : newDateTime date (strOr day.endTime "17:00") with
    | none =>
      refine ⟨0, fun fuel _ => ⟨[], ?_, rfl⟩, ?_, ?_, fun _ => rfl⟩
      · simp [candidateSlots, hs, he, generateTimeSlots]
      · intro s1 e1 _ h
        cases h
      · intro s1 e1 _ h
        cases h
    | some e =>
      refine ⟨((e - s + slotDurationOf service * msPerMinute - 1) /
        (slotDurationOf service * msPerMinute)).toNat, fun fuel hfuel => ?_, ?_, ?_, ?_⟩
      · have hloop := slotLoop_eq e _ _ s [] (slot_count_toNat s e _ hstep) fuel hfuel
        rw [List.nil_append] at hloop
        refine ⟨_, (by simpa only [candidateSlots, hs, he, generateTimeSlots] using hloop), ?_⟩
        simp
      · intro s1 e1 h1 h2 hlt
        cases h1
        cases h2
        refine Int.toNat_of_nonneg (Int.ediv_nonneg ?_ hstep.le)
        omega
      · intro s1 e1 h1 h2 hle
        cases h1
        cases h2
        have hlt : (e - s + slotDurationOf service * msPerMinute - 1) /
            (slotDurationOf service * msPerMinute) < 1 :=
          Int.ediv_lt_of_lt_mul hstep (by omega)
        omega
      · rintro (h | h) <;> cases h

/-- Scenario A ends after three iterations. -/
theorem slot_loop_terminates_witness :
    ∃ n : Nat,
      (∀ fuel, n ≤ fuel →
        ∃ slots, candidateSlots fuel scenarioService scenarioDay "2024-01-01" = some slots ∧
          slots.length = n) ∧
      (n : Int) = 3 := by
  obtain ⟨n, h1, h2, -, -⟩ := slot_loop_terminates scenarioService scenarioDay "2024-01-01"
    (Or.inr ⟨60, rfl, by decide⟩)
  refine ⟨n, h1, ?_⟩
  rw [h2 1704099600000 1704110400000 (by decide) (by decide) (by decide)]
  decide

/-! ## C28: rescheduling implies cancelling -/

/-- C28: a booking that `canBeRescheduled()` also `canBeCancelled()`, at every
current time; a booking that can be cancelled but not rescheduled has status
declined, and every declined booking scheduled more than 24 hours ahead is
one. -/
theorem reschedule_implies_cancel (b : Booking) (now : Int) :
    (canBeRescheduled b now = true → canBeCancelled b now = true) ∧
    (canBeCancelled b now = true → canBeRescheduled b now = false →
      b.status = Status.declined) ∧
    (b.status = Status.declined →
      moreThan24Hours (newDateTime b.scheduledDate b.scheduledTime) now = true →
      canBeCancelled b now = true ∧ canBeRescheduled b now = false) := by
  unfold canBeRescheduled canBeCancelled
  cases hs : b.status <;> simp

/-- A declined booking on 2024-01-03 seen from 2024-01-01 10:00 can be
cancelled and cannot be rescheduled; a pending one can be both. -/
theorem reschedule_implies_cancel_witness :
    (canBeCancelled { scenarioBooking "b1" "10:00" Status.declined with
        scheduledDate := "2024-01-03" } 1704103200000 = true ∧
      canBeRescheduled { scenarioBooking "b1" "10:00" Status.declined with
        scheduledDate := "2024-01-03" } 1704103200000 = false) ∧
    (canBeRescheduled { scenarioBooking "b1" "10:00" Status.pending with
        scheduledDate := "2024-01-03" } 1704103200000 = true →
      canBeCancelled { scenarioBooking "b1" "10:00" Status.pending with
        scheduledDate := "2024-01-03" } 1704103200000 = true) :=
  ⟨(reschedule_implies_cancel _ 1704103200000).2.2 rfl
      ((moreThan24Hours_iff _ _).2 ⟨1704276000000, by decide, by decide⟩),
   (reschedule_implies_cancel _ 1704103200000).1⟩

/-! ## C24: two concurrent requests -/

theorem newBooking_rejected (c : PostCall) (bookings : List Booking) :
    saveNew bookings c.newBooking = none := by
  simp [saveNew, Booking.valid, PostCall.newBooking]

theorem postStep_sequential (services : List Service) (bookings : List Booking)
    (xhr : Bool) (c : PostCall)
    (hvalid : bookingRequestErrors c.req = [])
    (hfind : findService services c.req.serviceId = some c.service)
    (hdt : (newDate c.req.date).bind (fun d => bookingDateTime d c.req.time) =
      some c.dateTime) :
    postStep c (postStep c .start bookings).1 (postStep c .start bookings).2 =
      (.done (postBooking services bookings (some c.userId) xhr c.newId c.req).1,
        (postBooking services bookings (some c.userId) xhr c.newId c.req).2) := by
  rw [postBooking_eq services bookings c.userId xhr c.newId c.req c.service c.dateTime hvalid
    hfind hdt]
  cases hex : existingBooking bookings c.req.serviceId c.dateTime <;>
    simp [postStep, hex, newBooking_rejected]

theorem postStep_keeps (c : PostCall) (phase : PostPhase) (bookings : List Booking)
    (h : phase.created = false) :
    (postStep c phase bookings).1.created = false ∧ (postStep c phase bookings).2 = bookings := by
  have hconflict : (PostPhase.done slotConflict).created = false := by decide
  have hfailed : (PostPhase.done ⟨500, false, .message "Server error"⟩).created = false := by
    decide
  cases phase with
  | start =>
    cases hex : existingBooking bookings c.req.serviceId c.dateTime with
    | none => exact ⟨by rw [postStep, hex]; rfl, by rw [postStep, hex]⟩
    | some found => exact ⟨by rw [postStep, hex]; exact hconflict, by rw [postStep, hex]⟩
  | saving =>
    exact ⟨by rw [postStep, newBooking_rejected]; exact hfailed,
      by rw [postStep, newBooking_rejected]⟩
  | done response => exact ⟨h, rfl⟩

theorem raceStep_keeps (a b : PostCall) (s : RaceState) (turn : Bool)
    (h1 : s.first.created = false) (h2 : s.second.created = false) :
    (raceStep a b s turn).first.created = false ∧
      (raceStep a b s turn).second.created = false ∧
      (raceStep a b s turn).bookings = s.bookings := by
  cases turn with
  | true =>
    obtain ⟨k1, k2⟩ := postStep_keeps a s.first s.bookings h1
    exact ⟨by simpa [raceStep] using k1, by simpa [raceStep] using h2,
      by simpa [raceStep] using k2⟩
  | false =>
    obtain ⟨k1, k2⟩ := postStep_keeps b s.second s.bookings h2
    exact ⟨by simpa [raceStep] using h1, by simpa [raceStep] using k1,
      by simpa [raceStep] using k2⟩

theorem race_keeps (a b : PostCall) (schedule : List Bool) :
    ∀ s : RaceState, s.first.created = false → s.second.created = false →
      (schedule.foldl (raceStep a b) s).first.created = false ∧
        (schedule.foldl (raceStep a b) s).second.created = false ∧
        (schedule.foldl (raceStep a b) s).bookings = s.bookings := by
  induction schedule with
  | nil => exact fun s h1 h2 => ⟨h1, h2, rfl⟩
  | cons turn schedule ih =>
    intro s h1 h2
    obtain ⟨k1, k2, k3⟩ := raceStep_keeps a b s turn h1 h2
    obtain ⟨r1, r2, r3⟩ := ih (raceStep a b s turn) k1 k2
    exact ⟨r1, r2, r3.trans k3⟩

/-- C24: under every interleaving of the find and save steps of two requests
to POST `/api/bookings`, at most one of them creates a booking: neither does.
The document that each handler saves has neither `scheduledDate` nor
`scheduledTime`, so each `save()` is rejected and answered with 500, and the
bookings are left as they were; interleaved as find, find, save, save, the two
requests for the scenario slot are both answered 500. The two steps of a
call, run one after the other, are the handler. -/
theorem concurrent_posts_at_most_one (a b : PostCall) (schedule : List Bool)
    (bookings : List Booking) :
    ¬ ((runRace a b schedule bookings).first.created = true ∧
        (runRace a b schedule bookings).second.created = true) ∧
    (runRace a b schedule bookings).first.created = false ∧
    (runRace a b schedule bookings).second.created = false ∧
    (runRace a b schedule bookings).bookings = bookings ∧
    runRace (raceCall "u1" "n1") (raceCall "u2" "n2") [true, false, true, false] [] =
      ⟨.done ⟨500, false, .message "Server error"⟩,
        .done ⟨500, false, .message "Server error"⟩, []⟩ ∧
    (∀ (services : List Service) (xhr : Bool), bookingRequestErrors a.req = [] →
      findService services a.req.serviceId = some a.service →
      (newDate a.req.date).bind (fun d => bookingDateTime d a.req.time) = some a.dateTime →
      postStep a (postStep a .start bookings).1 (postStep a .start bookings).2 =
        (.done (postBooking services bookings (some a.userId) xhr a.newId a.req).1,
          (postBooking services bookings (some a.userId) xhr a.newId a.req).2)) := by
  obtain ⟨h1, h2, h3⟩ := race_keeps a b schedule ⟨.start, .start, bookings⟩ rfl rfl
  refine ⟨?_, h1, h2, h3, by decide, fun services xhr hvalid hfind hdt =>
    postStep_sequential services bookings xhr a hvalid hfind hdt⟩
  rintro ⟨k1, -⟩
  rw [runRace, h1] at k1
  cases k1

/-! ## C25: valid images -/

theorem mem_stringsOf_filter (p : Option String → Bool) (images : List (Option String))
    (s : String) :
    s ∈ stringsOf (images.filter p) ↔ some s ∈ images ∧ p (some s) = true := by
  simp [stringsOf, List.mem_filterMap, List.mem_filter]

/-- C25 fails as stated: the image `/uploads/placeholder.jpg` is returned; it
contains `placeholder` and is not a `data:image/` URL. -/
theorem placeholder_counterexample :
    ¬ ∀ bike : Option BikeImages,
        (∀ img ∈ getValidBikeImages bike,
          includes img "placeholder" = true → startsWith img "data:image/" = true) ∧
        getValidBikeImages bike ≠ [] := by
  intro h
  have h1 := (h (some ⟨some [some "/uploads/placeholder.jpg"]⟩)).1
    "/uploads/placeholder.jpg" (by decide) (by decide)
  revert h1
  decide

/-- C25 as amended: every element of the list returned by
`getValidBikeImages` of `bikeController.js` that contains `placeholder`
starts with `data:image/`, with `http` or with `/uploads/`; the list is never
empty, and it is `['/images/default-bike.jpg']` when the bike is missing, has
no images array or an empty one, or no image passes the filter. -/
theorem validImages_spec (bike : Option BikeImages) :
    (∀ img ∈ getValidBikeImages bike, includes img "placeholder" = true →
      (startsWith img "data:image/" = true ∨ startsWith img "http" = true ∨
        startsWith img "/uploads/" = true)) ∧
    getValidBikeImages bike ≠ [] ∧
    ((bike = none ∨ (∃ b, bike = some b ∧
        (b.images = none ∨ ∃ images, b.images = some images ∧
          ∀ img ∈ images, validImage img = false))) →
      getValidBikeImages bike = ["/images/default-bike.jpg"]) := by
  have hdefault : ∀ img ∈ ["/images/default-bike.jpg"], includes img "placeholder" = true →
      (startsWith img "data:image/" = true ∨ startsWith img "http" = true ∨
        startsWith img "/uploads/" = true) := by
    intro img himg hinc
    rw [List.mem_singleton] at himg
    subst himg
    exact absurd hinc (by decide)
  have hfilter : ∀ images : List (Option String),
      ∀ img ∈ stringsOf (images.filter validImage), includes img "placeholder" = true →
      (startsWith img "data:image/" = true ∨ startsWith img "http" = true ∨
        startsWith img "/uploads/" = true) := by
    intro images img himg hinc
    have hv := ((mem_stringsOf_filter validImage images img).1 himg).2
    simp only [validImage, Bool.and_eq_true, Bool.or_eq_true, Bool.not_eq_true'] at hv
    rcases hv.2 with ((h | h) | h) | h
    · exact Or.inl h
    · exact Or.inr (Or.inl h)
    · exact Or.inr (Or.inr h)
    · rw [hinc] at h
      exact absurd h.1.1 (by decide)
  have hnone : ∀ images : List (Option String), (∀ img ∈ images, validImage img = false) →
      stringsOf (images.filter validImage) = [] := by
    intro images hall
    rw [List.eq_nil_iff_forall_not_mem]
    intro s hs
    have h := (mem_stringsOf_filter validImage images s).1 hs
    rw [hall _ h.1] at h
    exact absurd h.2 (by decide)
  cases bike with
  | none => exact ⟨hdefault, by decide, fun _ => rfl⟩
  | some b =>
    cases himages : b.images with
    | none =>
      simp only [getValidBikeImages, himages]
      exact ⟨hdefault, by decide, fun _ => trivial⟩
    | some images =>
      cases images with
      | nil =>
        simp only [getValidBikeImages, himages]
        exact ⟨hdefault, by decide, fun _ => trivial⟩
      | cons x xs =>
        simp only [getValidBikeImages, himages]
        by_cases hlen : (stringsOf ((x :: xs).filter validImage)).length > 0
        · rw [if_pos hlen]
          refine ⟨hfilter (x :: xs), List.ne_nil_of_length_pos hlen, ?_⟩
          rintro (h | ⟨b1, hb, h | ⟨images, hi, hall⟩⟩)
          · cases h
          · cases hb
            rw [himages] at h
            cases h
          · cases hb
            rw [himages] at hi
            cases hi
            rw [hnone _ hall] at hlen
            exact absurd hlen (by decide)
        · rw [if_neg hlen]
          exact ⟨hdefault, by decide, fun _ => rfl⟩

/-- An uploaded file and a remote image named placeholder are kept, the stock
placeholder is dropped, and without a valid image the default is returned. -/
theorem validImages_spec_witness :
    getValidBikeImages (some ⟨some [some "/uploads/placeholder.jpg",
        some "/images/placeholder.jpg", some "data:image/png;base64,placeholder"]⟩) =
      ["/uploads/placeholder.jpg", "data:image/png;base64,placeholder"] ∧
    getValidBikeImages (some ⟨some [some "/images/placeholder.jpg", none, some " "]⟩) =
      ["/images/default-bike.jpg"] :=
  ⟨by decide,
   (validImages_spec (some ⟨some [some "/images/placeholder.jpg", none, some " "]⟩)).2.2
      (Or.inr ⟨_, rfl, Or.inr ⟨_, rfl, by decide⟩⟩)⟩

/-! ## C26: checkRole -/

/-- C26: the middleware of `checkRole(allowedRoles)` calls `next()` exactly
when the session has a user whose role is set, not empty and a member of
`allowedRoles`; in every other case it answers with status 403. -/
theorem checkRole_next_iff (allowedRoles : List String) (user : Option SessionUser)
    (xhr : Bool) (path : String) :
    (checkRole allowedRoles user xhr path = .next ↔
      ∃ u role, user = some u ∧ u.role = some role ∧ role ≠ "" ∧ role ∈ allowedRoles) ∧
    (checkRole allowedRoles user xhr path ≠ .next →
      ∃ json message, checkRole allowedRoles user xhr path = .denied 403 json message) := by
  have hdenied : accessDenied xhr path ≠ .next ∧
      ∃ json message, accessDenied xhr path = .denied 403 json message := by
    unfold accessDenied
    split
    · exact ⟨by simp, _, _, rfl⟩
    · exact ⟨by simp, _, _, rfl⟩
  cases user with
  | none =>
    simp only [checkRole]
    exact ⟨⟨fun h => absurd h hdenied.1, fun ⟨u, _, h, _⟩ => by cases h⟩, fun _ => hdenied.2⟩
  | some u =>
    cases hrole : u.role with
    | none =>
      simp only [checkRole, hrole]
      refine ⟨⟨fun h => absurd h hdenied.1, ?_⟩, fun _ => hdenied.2⟩
      rintro ⟨u1, role, h1, h2, -, -⟩
      cases h1
      rw [hrole] at h2
      cases h2
    | some role =>
      simp only [checkRole, hrole]
      by_cases hempty : role = ""
      · rw [if_pos hempty]
        refine ⟨⟨fun h => absurd h hdenied.1, ?_⟩, fun _ => hdenied.2⟩
        rintro ⟨u1, role1, h1, h2, h3, -⟩
        cases h1
        rw [hrole] at h2
        cases h2
        exact absurd hempty h3
      · rw [if_neg hempty]
        by_cases hmem : allowedRoles.contains role = true
        · rw [if_pos hmem]
          refine ⟨⟨fun _ => ⟨u, role, rfl, hrole, hempty, ?_⟩, fun _ => rfl⟩,
            fun h => absurd rfl h⟩
          simpa using hmem
        · rw [if_neg hmem]
          refine ⟨⟨fun h => absurd h hdenied.1, ?_⟩, fun _ => hdenied.2⟩
          rintro ⟨u1, role1, h1, h2, -, h4⟩
          cases h1
          rw [hrole] at h2
          cases h2
          exact absurd (by simpa using h4) hmem

/-- An admin passes `checkRole(['admin', 'seller'])`; a buyer, a user without
role and a request without user get 403. -/
theorem checkRole_next_iff_witness :
    checkRole ["admin", "seller"] (some ⟨"u1", some "admin"⟩) false "/dashboard" = .next ∧
    (∃ json message,
      checkRole ["admin", "seller"] (some ⟨"u2", some "buyer"⟩) false "/dashboard" =
        .denied 403 json message) ∧
    (∃ json message,
      checkRole ["admin", "seller"] none true "/api/x" = .denied 403 json message) :=
  ⟨(checkRole_next_iff _ _ false "/dashboard").1.2 ⟨_, "admin", rfl, rfl, by decide, by decide⟩,
   (checkRole_next_iff ["admin", "seller"] (some ⟨"u2", some "buyer"⟩) false "/dashboard").2
     (by decide),
   (checkRole_next_iff ["admin", "seller"] none true "/api/x").2 (by decide)⟩

/-! ## C30: timeSince -/

/-- C30 on the code: 28 days after creation the virtual shows `0 months ago`
and 360 days after creation `0 years ago`, although more than 60 seconds have
passed; one day earlier it shows `3 weeks ago` and `11 months ago`. -/
theorem timeSince_shows_zero :
    timeSince 0 (daysAgo 28) = "0 months ago" ∧
    timeSinceParts 0 (daysAgo 28) = (0, "month") ∧
    timeSince 0 (daysAgo 29) = "0 months ago" ∧
    timeSince 0 (daysAgo 360) = "0 years ago" ∧
    timeSinceParts 0 (daysAgo 364) = (0, "year") ∧
    timeSince 0 (daysAgo 27) = "3 weeks ago" ∧
    timeSince 0 (daysAgo 359) = "11 months ago" ∧
    timeSince 0 (daysAgo 365) = "1 year ago" ∧
    (60 : Int) * 1000 ≤ daysAgo 28 - 0 := by
  decide

/-! ## C29: the two slot generators -/

theorem padStart2_toString (n : Nat) (h : n < 60) :
    padStart2 (toString (n : Int)) = String.mk [digitChar (n / 10), digitChar n] := by
  interval_cases n <;> rfl

theorem digitVal_ne (c : Char) (x : Nat) (h : digitVal c = some x) :
    c ≠ ':' ∧ c ≠ '-' ∧ c ≠ '+' := by
  have h1 : digitVal ':' = none := by decide
  have h2 : digitVal '-' = none := by decide
  have h3 : digitVal '+' = none := by decide
  refine ⟨?_, ?_, ?_⟩ <;> rintro rfl
  · rw [h1] at h
    cases h
  · rw [h2] at h
    cases h
  · rw [h3] at h
    cases h

theorem jsNumber_twoDigits (a b : Char) (n : Nat) (h : twoDigits a b = some n) :
    jsNumber [a, b] = .num (n : Int) := by
  unfold twoDigits at h
  split at h
  · rename_i x y hx hy
    cases h
    obtain ⟨-, h1, h2⟩ := digitVal_ne a x hx
    have hd : digitsVal [a, b] 0 = some (10 * x + y) := by
      simp [digitsVal, hx, hy]
    unfold jsNumber
    split
    · rename_i heq
      cases heq
    · rename_i heq
      cases heq
      exact absurd rfl h1
    · rename_i heq
      cases heq
      exact absurd rfl h2
    · rw [hd]
  · cases h

theorem routeCondition_iff (h m ch cm : Int) (hm0 : 0 ≤ m) (hm : m < 60) (hc0 : 0 ≤ cm)
    (hc : cm < 60) :
    ((JsNum.num h).lt (.num ch) ||
      ((JsNum.num h).strictEq (.num ch) && (JsNum.num m).lt (.num cm))) = true ↔
      h * 60 + m < ch * 60 + cm := by
  simp only [JsNum.lt, JsNum.strictEq, Bool.or_eq_true, Bool.and_eq_true, decide_eq_true_eq]
  omega

theorem twoDigits_ne_colon (a b : Char) (n : Nat) (h : twoDigits a b = some n) :
    a ≠ ':' ∧ b ≠ ':' := by
  unfold twoDigits at h
  split at h
  · rename_i x y hx hy
    exact ⟨(digitVal_ne a x hx).1, (digitVal_ne b y hy).1⟩
  · cases h

theorem hourMinute_of_parse (s : String) (t : Nat) (h : parseTimeOfDay s = some t)
    (ht : t < 1440) :
    hourMinute s = (.num ((t / 60 : Nat) : Int), .num ((t % 60 : Nat) : Int)) := by
  unfold parseTimeOfDay at h
  split at h
  · rename_i h1 h2 m1 m2 heq
    split at h
    · rename_i hh mm hhh hmm
      split at h
      · rename_i hcond
        cases h
        have e1 := jsNumber_twoDigits h1 h2 hh hhh
        have e2 := jsNumber_twoDigits m1 m2 mm hmm
        obtain ⟨n1, n2⟩ := twoDigits_ne_colon h1 h2 hh hhh
        obtain ⟨n3, n4⟩ := twoDigits_ne_colon m1 m2 mm hmm
        have hsplit : splitColon [h1, h2, ':', m1, m2] = [[h1, h2], [m1, m2]] := by
          simp [splitColon, n1, n2, n3, n4]
        have hmm60 : mm < 60 := by omega
        have hdiv : (hh * 60 + mm) / 60 = hh := by omega
        have hmod : (hh * 60 + mm) % 60 = mm := by omega
        simp only [hourMinute, heq, hsplit, List.map_cons, List.map_nil, e1, e2, hdiv, hmod]
      · cases h
    · cases h
  · cases h

theorem routeLoop_eq (ch cm m : Int) (hm0 : 0 ≤ m) (hm : m < 60) (hc0 : 0 ≤ cm)
    (hc : cm < 60) :
    ∀ (n : Nat) (h : Int) (acc : List String),
      (∀ k : Nat, (h + k) * 60 + m < ch * 60 + cm ↔ k < n) →
      ∀ fuel, n ≤ fuel →
        routeLoop [] (.num ch) (.num cm) fuel (.num h) (.num m) acc =
          some (some (acc ++ (List.range n).map (fun k : Nat =>
            padStart2 (toString (h + (k : Int))) ++ ":" ++ padStart2 (toString m)))) := by
  intro n
  induction n with
  | zero =>
    intro h acc hn fuel _
    have h0 : ¬ (h * 60 + m < ch * 60 + cm) := by
      have := hn 0
      simpa using this
    have hcond := (routeCondition_iff h m ch cm hm0 hm hc0 hc).not.2 h0
    cases fuel <;> simp [routeLoop, hcond]
  | succ n ih =>
    intro h acc hn fuel hfuel
    have h0 : h * 60 + m < ch * 60 + cm := by
      have := (hn 0).2 (Nat.succ_pos n)
      simpa using this
    have hcond := (routeCondition_iff h m ch cm hm0 hm hc0 hc).2 h0
    obtain ⟨f, rfl⟩ : ∃ f, fuel = f + 1 := ⟨fuel - 1, by omega⟩
    have hstep : ∀ k : Nat, (h + 1 + k) * 60 + m < ch * 60 + cm ↔ k < n := by
      intro k
      have := hn (k + 1)
      rw [Nat.succ_lt_succ_iff] at this
      rw [← this]
      push_cast
      constructor <;> intro h1 <;> linarith
    have h60 : (60 : Int) ≤ m + 60 := by omega
    have hdiv : (m + 60) / 60 = 1 := by omega
    have hmod : (m + 60) % 60 = m := by omega
    rw [routeLoop, if_pos hcond]
    simp only [JsNum.pad2, JsNum.add, JsNum.addNum, List.contains_nil, Bool.false_eq_true,
      if_false, if_pos h60, hdiv, hmod]
    rw [ih (h + 1) _ hstep f (by omega)]
    rw [List.range_succ_eq_map, List.map_cons, List.map_map]
    simp only [List.append_assoc, List.singleton_append, Nat.cast_zero, add_zero]
    congr 4
    refine List.map_congr_left (fun k _ => ?_)
    simp only [Function.comp, Nat.cast_succ]
    congr 4
    ring

theorem hhmm_eq_pad (H M : Nat) (hH : H < 24) (hM : M < 60) :
    padStart2 (toString (H : Int)) ++ ":" ++ padStart2 (toString (M : Int)) =
      hhmm ((H : Int) * 60 + M) := by
  have h1 : (((H : Int) * 60 + M) / 60).toNat = H := by omega
  have h2 : (((H : Int) * 60 + M) % 60).toNat = M := by omega
  rw [padStart2_toString H (by omega), padStart2_toString M hM]
  simp only [hhmm, h1, h2]
  rfl

/-- C29: for a valid date, valid same-day `HH:MM` times `openTime` and
`closeTime` and slot duration 60, the loop of `getServiceAvailability` that
steps a date and the loop of the availability route that steps hour and minute
end with the same sequence of slots when there is no booking, and so do the
two functions on a service with that schedule. -/
theorem slot_generators_agree (service : Service) (day : DayAvailability)
    (date openTime closeTime : String) (oMin cMin : Nat) (days : Int)
    (hdate : parseDate date = some days)
    (ho : parseTimeOfDay openTime = some oMin) (hc : parseTimeOfDay closeTime = some cMin)
    (ho24 : oMin < 1440) (hc24 : cMin < 1440)
    (hstart : day.startTime = some openTime) (hend : day.endTime = some closeTime)
    (hdur : slotDurationOf service = 60) :
    ∃ (n : Nat) (slots : List String), ∀ fuel, n ≤ fuel →
      candidateSlots fuel service day date = some slots ∧
      routeLoop [] (hourMinute closeTime).1 (hourMinute closeTime).2 fuel
        (hourMinute openTime).1 (hourMinute openTime).2 [] = some (some slots) ∧
      (∀ (services : List Service) (id : String),
        findService services id = some service → dayAvailabilityOf service date = some day →
        day.available = true →
        getServiceAvailability fuel services [] id date = some (.ok slots)) ∧
      (∀ (services : List Service) (id : String) (routeService : Service)
        (entries : List DayEntry) (entry : DayEntry),
        isMongoId id = true → findService services id = some routeService →
        routeService.availability = .asArray entries → routeDayOf entries date = some entry →
        entry.available = true → entry.openTime = some openTime →
        entry.closeTime = some closeTime →
        availabilityRoute fuel services [] id (some date) =
          some ⟨200, true, .slots slots⟩) := by
  obtain ⟨n, hn⟩ := slot_count_exists oMin cMin 60 (by decide)
  have ho0 := parseTimeOfDay_ne_empty openTime oMin ho
  have hc0 := parseTimeOfDay_ne_empty closeTime cMin hc
  have hdate0 : date ≠ "" := by
    rintro rfl
    simp [parseDate] at hdate
  refine ⟨n, (List.range n).map (fun k : Nat => hhmm (oMin + (k : Int) * 60)),
    fun fuel hfuel => ?_⟩
  have hcand : candidateSlots fuel service day date =
      some ((List.range n).map (fun k : Nat => hhmm (oMin + (k : Int) * 60))) := by
    simp only [candidateSlots, hstart, hend, strOr, if_neg ho0, if_neg hc0, newDateTime, hdate,
      ho, hc, hdur]
    exact generateTimeSlots_minutes days oMin cMin 60 (by decide) hc24.le n hn fuel hfuel
  have hroute : routeLoop [] (hourMinute closeTime).1 (hourMinute closeTime).2 fuel
      (hourMinute openTime).1 (hourMinute openTime).2 [] =
        some (some ((List.range n).map (fun k : Nat => hhmm (oMin + (k : Int) * 60)))) := by
    rw [hourMinute_of_parse openTime oMin ho ho24, hourMinute_of_parse closeTime cMin hc hc24]
    have hloop : ∀ k : Nat, (((oMin / 60 : Nat) : Int) + k) * 60 + ((oMin % 60 : Nat) : Int) <
        ((cMin / 60 : Nat) : Int) * 60 + ((cMin % 60 : Nat) : Int) ↔ k < n := by
      intro k
      rw [← hn k]
      omega
    rw [routeLoop_eq _ _ _ (by omega) (by omega) (by omega) (by omega) n _ [] hloop fuel hfuel,
      List.nil_append]
    congr 2
    refine List.map_congr_left (fun k hk => ?_)
    have hk1 := (hn k).2 (List.mem_range.1 hk)
    have e1 : ((oMin / 60 : Nat) : Int) + (k : Int) = ((oMin / 60 + k : Nat) : Int) := by
      push_cast
      rfl
    have e2 : (oMin : Int) + (k : Int) * 60 =
        ((oMin / 60 + k : Nat) : Int) * 60 + ((oMin % 60 : Nat) : Int) := by
      omega
    rw [e1, e2]
    exact hhmm_eq_pad (oMin / 60 + k) (oMin % 60) (by omega) (by omega)
  refine ⟨hcand, hroute, ?_, ?_⟩
  · intro services id hfind hday hav
    simp [getServiceAvailability, findService_isMongoId services id service hfind, hfind, hday,
      hav, hcand, existingBookings]
  · intro services id routeService entries entry hid hfind havail hentry hopen hot hct
    have hnd : newDate date = some (days * msPerDay) := by simp [newDate, hdate]
    simp only [availabilityRoute, hid, Bool.not_true, Bool.false_eq_true, if_false, hdate0,
      hfind, havail, hentry, hnd, hopen, hot, hct, strOr, if_neg ho0, if_neg hc0,
      routeBookings, List.filter_nil, List.map_nil]
    rw [hroute]

/-- Scenario A: both functions answer 09:00, 10:00 and 11:00 without
booking. -/
theorem slot_generators_agree_witness :
    (getServiceAvailability 3 [scenarioService] [] scenarioId "2024-01-01" =
        some (.ok ["09:00", "10:00", "11:00"]) ∧
      availabilityRoute 3 [scenarioRouteService] [] scenarioId (some "2024-01-01") =
        some ⟨200, true, .slots ["09:00", "10:00", "11:00"]⟩) ∧
    ∃ (n : Nat) (slots : List String), ∀ fuel, n ≤ fuel →
      candidateSlots fuel scenarioService scenarioDay "2024-01-01" = some slots ∧
      routeLoop [] (hourMinute "12:00").1 (hourMinute "12:00").2 fuel
        (hourMinute "09:00").1 (hourMinute "09:00").2 [] = some (some slots) := by
  refine ⟨by decide, ?_⟩
  obtain ⟨n, slots, h⟩ := slot_generators_agree scenarioService scenarioDay "2024-01-01"
    "09:00" "12:00" 540 720 19723 (by decide) (by decide) (by decide) (by decide) (by decide)
    rfl rfl (by decide)
  exact ⟨n, slots, fun fuel hfuel => ⟨(h fuel hfuel).1, (h fuel hfuel).2.1⟩⟩

end BikersPortal
